import Mathlib

/-!
# Verification of the OCT response normalizer (`process_gpt_response`, src/app.py)

This file gives a shallow embedding of the response-normalization core of the
OCT clinical-form application and proves/refutes the specification's claims
about it.

The Python function `process_gpt_response` (src/app.py, lines 202-324) takes a
decoded JSON value, mutates it in place and returns it.  We model decoded JSON
values with the inductive type `Oct.Json` below (Python dicts become ordered
association lists, as produced by `json.loads`), and model the function as
`Oct.process_gpt_response : Json → Option Json`, where `none` represents the
call raising a Python exception and `some v` represents a normal return whose
returned object holds the value `v` (since the source mutates its argument in
place and returns it, `v` is also the final value of the caller's object).

Python string primitives (`str.lower`, `str.capitalize`, substring `in`) are
modelled on ASCII characters plus the accented letters occurring in this
application's French vocabulary (é, è, ê, à, â, ç, î, ï, ô, û, ù, œ); any other
character is mapped to itself.
-/

set_option autoImplicit false

namespace Oct

/-- A decoded JSON value.  Python dicts are ordered association lists with
string keys (the shape `json.loads` produces); numbers are collapsed to `Int`
since no claim inspects numeric values. -/
inductive Json where
  | null
  | bool (b : Bool)
  | num (n : Int)
  | str (s : String)
  | arr (xs : List Json)
  | obj (kvs : List (String × Json))

/-- First-match lookup in a Python dict (association list). -/
def objLookup (kvs : List (String × Json)) (k : String) : Option Json :=
  match kvs with
  | [] => none
  | (k1, v) :: rest => if k1 = k then some v else objLookup rest k

/-- Python dict assignment `d[k] = v`: replace the value at the first
occurrence of `k`, or append the pair at the end when `k` is absent. -/
def objSet (kvs : List (String × Json)) (k : String) (v : Json) : List (String × Json) :=
  match kvs with
  | [] => [(k, v)]
  | (k1, v1) :: rest => if k1 = k then (k, v) :: rest else (k1, v1) :: objSet rest k v

/-- Python `k in d` for a dict. -/
def hasKey (kvs : List (String × Json)) (k : String) : Bool :=
  (objLookup kvs k).isSome

/-- Case-conversion table: ASCII letters plus the accented letters used by
this application's French vocabulary. -/
def lowerPairs : List (Char × Char) :=
  [ ('A', 'a'), ('B', 'b'), ('C', 'c'), ('D', 'd'), ('E', 'e'), ('F', 'f'),
    ('G', 'g'), ('H', 'h'), ('I', 'i'), ('J', 'j'), ('K', 'k'), ('L', 'l'),
    ('M', 'm'), ('N', 'n'), ('O', 'o'), ('P', 'p'), ('Q', 'q'), ('R', 'r'),
    ('S', 's'), ('T', 't'), ('U', 'u'), ('V', 'v'), ('W', 'w'), ('X', 'x'),
    ('Y', 'y'), ('Z', 'z'),
    ('É', 'é'), ('È', 'è'), ('Ê', 'ê'), ('À', 'à'), ('Â', 'â'), ('Ç', 'ç'),
    ('Î', 'î'), ('Ï', 'ï'), ('Ô', 'ô'), ('Û', 'û'), ('Ù', 'ù'), ('Œ', 'œ') ]

/-- First-match lookup in a character-pair table. -/
def charLookup (c : Char) : List (Char × Char) → Option Char
  | [] => none
  | (a, b) :: rest => if a = c then some b else charLookup c rest

/-- Python `str.lower` on one character (modelled on this application's
alphabet; characters outside the table map to themselves). -/
def pyLowerChar (c : Char) : Char :=
  (charLookup c lowerPairs).getD c

/-- Python `str.upper`/title-casing on one character (same alphabet). -/
def pyUpperChar (c : Char) : Char :=
  (charLookup c (lowerPairs.map (fun p => (p.2, p.1)))).getD c

/-- Python `str.lower`. -/
def pyLower (s : String) : String :=
  String.mk (s.data.map pyLowerChar)

/-- Python `str.capitalize`: first character title-cased, the rest
lower-cased; the empty string maps to itself. -/
def pyCapitalize (s : String) : String :=
  match s.data with
  | [] => ""
  | c :: cs => String.mk (pyUpperChar c :: cs.map pyLowerChar)

/-- Contiguous-sublist test on character lists (Python substring `in`). -/
def listInfix (needle : List Char) : List Char → Bool
  | [] => needle.isEmpty
  | c :: rest => List.isPrefixOf needle (c :: rest) || listInfix needle rest

/-- Python `needle in hay` for strings (substring containment). -/
def strContains (hay needle : String) : Bool :=
  listInfix needle.data hay.data

/-- Python `s in xs` for a list: some element compares equal to the string
`s` (a non-string element is never equal to a string under Python `==`). -/
def arrHas (xs : List Json) (s : String) : Bool :=
  xs.any (fun x => match x with | Json.str t => t = s | _ => false)

/-- Python `s in j` (the `in` operator on a decoded JSON value): key
membership for dicts, element membership for lists, substring containment
for strings; `none` models the `TypeError` raised on the other types. -/
def pyContains (j : Json) (s : String) : Option Bool :=
  match j with
  | Json.obj kvs => some (hasKey kvs s)
  | Json.arr xs => some (arrHas xs s)
  | Json.str t => some (strContains t s)
  | _ => none

/-- Python `j[k]` with a string key: dict lookup; `none` models the
`KeyError` on a missing key and the `TypeError` on non-dict values. -/
def getItem (j : Json) (k : String) : Option Json :=
  match j with
  | Json.obj kvs => objLookup kvs k
  | _ => none

/-- Python `j[k] = v` with a string key: dict update/append; `none` models
the `TypeError` on non-dict values. -/
def setItem (j : Json) (k : String) (v : Json) : Option Json :=
  match j with
  | Json.obj kvs => some (Json.obj (objSet kvs k v))
  | _ => none

/-- A string-method receiver: `none` models the `AttributeError` raised when
`.lower()`/`.capitalize()` is called on a non-string value. -/
def asStr : Json → Option String
  | Json.str s => some s
  | _ => none

/-- Discriminator: is this value a Python dict? -/
def Json.isObj : Json → Bool
  | Json.obj _ => true
  | _ => false

/-- Discriminator: is this value a Python string? -/
def Json.isStr : Json → Bool
  | Json.str _ => true
  | _ => false

/-- The size-standardization table of src/app.py lines 247-256
(`taille_mapping`). -/
def taille_mapping : List (String × String) :=
  [ ("small", "petite"), ("medium", "grande"), ("large", "volumineuse"),
    ("petit", "petite"), ("grand", "grande"),
    ("<100", "petite"), ("100-200", "grande"), (">200", "volumineuse") ]

/-- First-match lookup in a string-pair table. -/
def strLookup (k : String) : List (String × String) → Option String
  | [] => none
  | (a, b) :: rest => if a = k then some b else strLookup k rest

/-- Python `taille_mapping.get(taille, taille)` (src/app.py line 283). -/
def tailleGet (k : String) : String :=
  (strLookup k taille_mapping).getD k

/-- The per-eye default record of src/app.py lines 208-232
(`default_structure["left_eye"]`; the right eye is a deep copy of it). -/
def defaultEyeFields : List (String × Json) :=
  [ ("dril", Json.obj [("status", Json.str "Absente"), ("extent", Json.str "")]),
    ("oedeme", Json.obj
      [ ("status", Json.str "Absent"), ("nb_logette", Json.str ""),
        ("taille", Json.str ""), ("localisation", Json.str "") ]),
    ("mle", Json.str "Continue"),
    ("ze", Json.str "Continue"),
    ("points_hyperreflectifs", Json.obj
      [ ("status", Json.str "Absents"), ("nombre", Json.str ""),
        ("localisation", Json.str "") ]),
    ("epaisseur_retinienne", Json.obj
      [ ("central", Json.str ""), ("superieur", Json.str ""),
        ("inferieur", Json.str ""), ("nasal", Json.str ""),
        ("temporal", Json.str "") ]),
    ("briding", Json.str "Absent"),
    ("decollement", Json.str "Absent") ]

/-- One fully-defaulted eye record. -/
def defaultEye : Json := Json.obj defaultEyeFields

/-- The Default Schema for both eyes (`default_structure` after the
deep copy of src/app.py line 239). -/
def default_structure : Json :=
  Json.obj [("left_eye", defaultEye), ("right_eye", defaultEye)]

/-- src/app.py lines 266-271 and 296-302: standardization of a
Present/Absent status field (`dril`, `points_hyperreflectifs`).  The source
first writes the capitalized status back, then, when the capitalized form is
not one of the two canonical labels, overwrites it with the label chosen by
the `"present"` substring test on the lower-cased (capitalized) status. -/
def stdStatus (eyeData : Json) (field pres abs1 : String) : Option Json := do
  let b ← pyContains eyeData field
  if b then do
    let sub ← getItem eyeData field
    match sub with
    | Json.obj d => do
        let st ← objLookup d "status"
        let s ← asStr st
        let cap := pyCapitalize s
        let d1 := objSet d "status" (Json.str cap)
        let d2 := if cap = pres ∨ cap = abs1 then d1
          else objSet d1 "status"
            (Json.str (if strContains (pyLower cap) "present" then pres else abs1))
        setItem eyeData field (Json.obj d2)
    | _ => pure eyeData
  else pure eyeData

/-- src/app.py lines 273-283: standardization of the `oedeme` entry (status
like `stdStatus`, then the `taille` translation, which stores the lower-cased
value looked up in `taille_mapping` with the lower-cased value itself as the
fallback). -/
def stdOedeme (eyeData : Json) : Option Json := do
  let b ← pyContains eyeData "oedeme"
  if b then do
    let sub ← getItem eyeData "oedeme"
    match sub with
    | Json.obj d => do
        let st ← objLookup d "status"
        let s ← asStr st
        let cap := pyCapitalize s
        let d1 := objSet d "status" (Json.str cap)
        let d2 := if cap = "Présent" ∨ cap = "Absent" then d1
          else objSet d1 "status"
            (Json.str (if strContains (pyLower cap) "present" then "Présent" else "Absent"))
        match objLookup d2 "taille" with
        | none => setItem eyeData "oedeme" (Json.obj d2)
        | some tv => do
            let t ← asStr tv
            let d3 := objSet d2 "taille" (Json.str (tailleGet (pyLower t)))
            setItem eyeData "oedeme" (Json.obj d3)
    | _ => pure eyeData
  else pure eyeData

/-- src/app.py lines 285-294: standardization of one membrane-integrity
field (`mle` or `ze`) by substring classification of the lower-cased value,
in the priority order `"continu"`, `"partiel"`, `"complet"`; no branch
matching leaves the field untouched. -/
def stdMembrane (eyeData : Json) (field : String) : Option Json := do
  let b ← pyContains eyeData field
  if b then do
    let v ← getItem eyeData field
    let s ← asStr v
    if strContains (pyLower s) "continu" then
      setItem eyeData field (Json.str "Continue")
    else if strContains (pyLower s) "partiel" then
      setItem eyeData field (Json.str "Partiellement interrompue")
    else if strContains (pyLower s) "complet" then
      setItem eyeData field (Json.str "Complètement interrompue")
    else pure eyeData
  else pure eyeData

/-- The structured thickness record built from a flat string description
(src/app.py lines 308-314). -/
def epaisseurObj (s : String) : Json :=
  Json.obj
    [ ("central", Json.str s), ("superieur", Json.str ""),
      ("inferieur", Json.str ""), ("nasal", Json.str ""),
      ("temporal", Json.str "") ]

/-- src/app.py lines 304-314: a string-valued `epaisseur_retinienne` entry is
replaced by the structured per-sector record with the string as the central
sector; any other shape is left untouched. -/
def stdEpaisseur (eyeData : Json) : Option Json := do
  let b ← pyContains eyeData "epaisseur_retinienne"
  if b then do
    let v ← getItem eyeData "epaisseur_retinienne"
    match v with
    | Json.str s => setItem eyeData "epaisseur_retinienne" (epaisseurObj s)
    | _ => pure eyeData
  else pure eyeData

/-- src/app.py lines 316-320: the field-level defaulting loop, which adds
every default key missing from the eye record (with Python `in`/assignment
semantics, so a non-dict eye value raises unless every key is "contained"
in it). -/
def fillDefaults (eyeData : Json) : List (String × Json) → Option Json
  | [] => some eyeData
  | (k, v) :: rest => do
      let b ← pyContains eyeData k
      let e1 ← if b then pure eyeData else setItem eyeData k v
      fillDefaults e1 rest

/-- The whole per-eye normalization body of the `for eye in [...]` loop
(src/app.py lines 264-320). -/
def processEye (eyeData : Json) : Option Json := do
  let e1 ← stdStatus eyeData "dril" "Présente" "Absente"
  let e2 ← stdOedeme e1
  let e3 ← stdMembrane e2 "mle"
  let e4 ← stdMembrane e3 "ze"
  let e5 ← stdStatus e4 "points_hyperreflectifs" "Présents" "Absents"
  let e6 ← stdEpaisseur e5
  fillDefaults e6 defaultEyeFields

/-- One iteration of the eye loop (src/app.py lines 259-320): an absent eye
key is assigned the default record; a present one is normalized in place. -/
def processEyeKey (resp : Json) (eye : String) : Option Json := do
  let b ← pyContains resp eye
  if b then do
    let e ← getItem resp eye
    let e1 ← processEye e
    setItem resp eye e1
  else setItem resp eye defaultEye

/-- src/app.py lines 202-324, `process_gpt_response`: the error-marker
short-circuit followed by the two eye iterations.  `none` models the call
raising; `some v` models a normal return with value `v` (the source mutates
its argument in place and returns it, so `v` is also the final value of the
caller's object). -/
def process_gpt_response (resp : Json) : Option Json := do
  let he ← pyContains resp "error"
  if he then pure default_structure
  else do
    let r1 ← processEyeKey resp "left_eye"
    processEyeKey r1 "right_eye"

/-- The net effect of the two status writes of src/app.py lines 269-271 (and
their twins at 276-278 and 300-302): the capitalized raw status when it is one
of the two canonical labels, otherwise the label selected by the `"present"`
substring test on the lower-cased capitalized status. -/
def statusNorm (s pres abs1 : String) : String :=
  if pyCapitalize s = pres ∨ pyCapitalize s = abs1 then pyCapitalize s
  else if strContains (pyLower (pyCapitalize s)) "present" then pres else abs1

/-- The net effect of the membrane-integrity cascade of src/app.py lines
285-294 on a raw string value. -/
def membraneNorm (s : String) : String :=
  if strContains (pyLower s) "continu" then "Continue"
  else if strContains (pyLower s) "partiel" then "Partiellement interrompue"
  else if strContains (pyLower s) "complet" then "Complètement interrompue"
  else s

/-! ## Association-list lemmas -/

theorem objLookup_objSet_self (kvs : List (String × Json)) (k : String) (v : Json) :
    objLookup (objSet kvs k v) k = some v := by
  induction kvs with
  | nil => simp [objSet, objLookup]
  | cons p rest ih =>
      obtain ⟨k1, v1⟩ := p
      by_cases h : k1 = k
      · simp [objSet, h, objLookup]
      · simp [objSet, h, objLookup, ih]

theorem objLookup_objSet_ne (kvs : List (String × Json)) (k k' : String) (v : Json)
    (h : k' ≠ k) : objLookup (objSet kvs k v) k' = objLookup kvs k' := by
  induction kvs with
  | nil => simp [objSet, objLookup, Ne.symm h]
  | cons p rest ih =>
      obtain ⟨k1, v1⟩ := p
      by_cases hk : k1 = k
      · subst hk
        simp [objSet, objLookup, Ne.symm h]
      · simp [objSet, hk, objLookup, ih]

theorem objSet_lookup_eq (kvs : List (String × Json)) (k : String) (v : Json)
    (h : objLookup kvs k = some v) : objSet kvs k v = kvs := by
  induction kvs with
  | nil => simp [objLookup] at h
  | cons p rest ih =>
      obtain ⟨k1, v1⟩ := p
      by_cases hk : k1 = k
      · subst hk
        simp [objLookup] at h
        simp [objSet, h]
      · simp [objLookup, hk] at h
        simp [objSet, hk, ih h]

theorem objSet_objSet_same (kvs : List (String × Json)) (k : String) (v v' : Json) :
    objSet (objSet kvs k v) k v' = objSet kvs k v' := by
  induction kvs with
  | nil => simp [objSet]
  | cons p rest ih =>
      obtain ⟨k1, v1⟩ := p
      by_cases hk : k1 = k
      · simp [objSet, hk]
      · simp [objSet, hk, ih]

theorem hasKey_objSet (kvs : List (String × Json)) (k k' : String) (v : Json) :
    hasKey (objSet kvs k v) k' = (k' = k || hasKey kvs k') := by
  by_cases h : k' = k
  · subst h
    simp [hasKey, objLookup_objSet_self]
  · simp [hasKey, objLookup_objSet_ne kvs k k' v h, h]

/-! ## Lemmas about the Python string primitives -/

theorem charLookup_mem (c d : Char) (l : List (Char × Char))
    (h : charLookup c l = some d) : (c, d) ∈ l := by
  induction l with
  | nil => simp [charLookup] at h
  | cons p rest ih =>
      obtain ⟨a, b⟩ := p
      by_cases hac : a = c
      · subst hac
        simp [charLookup] at h
        simp [h]
      · simp [charLookup, hac] at h
        exact List.mem_cons_of_mem _ (ih h)

/-- No lower-cased character is itself a key of the case table. -/
theorem lowerPairs_noChain :
    lowerPairs.all (fun p => (charLookup p.2 lowerPairs).isNone) = true := by decide

theorem pyLowerChar_idem (c : Char) : pyLowerChar (pyLowerChar c) = pyLowerChar c := by
  unfold pyLowerChar
  cases h : charLookup c lowerPairs with
  | none => simp [h]
  | some d =>
      have hm := charLookup_mem c d lowerPairs h
      have hall := List.all_eq_true.mp lowerPairs_noChain (c, d) hm
      simp only [Option.isNone_iff_eq_none] at hall
      simp [h, hall]

theorem pyLower_idem (s : String) : pyLower (pyLower s) = pyLower s := by
  have hc : pyLowerChar ∘ pyLowerChar = pyLowerChar := funext pyLowerChar_idem
  unfold pyLower
  simp [List.map_map, hc]

theorem strLookup_mem (k v : String) (l : List (String × String))
    (h : strLookup k l = some v) : (k, v) ∈ l := by
  induction l with
  | nil => simp [strLookup] at h
  | cons p rest ih =>
      obtain ⟨a, b⟩ := p
      by_cases hak : a = k
      · subst hak
        simp [strLookup] at h
        simp [h]
      · simp [strLookup, hak] at h
        exact List.mem_cons_of_mem _ (ih h)

/-- A value written by the size translation is a fixed point of it: it is
already lower-case and a further `taille_mapping.get` lookup leaves it
unchanged. -/
theorem tailleGet_fix (s : String) :
    pyLower (tailleGet (pyLower s)) = tailleGet (pyLower s) ∧
      tailleGet (tailleGet (pyLower s)) = tailleGet (pyLower s) := by
  cases h : strLookup (pyLower s) taille_mapping with
  | none =>
      have h1 : tailleGet (pyLower s) = pyLower s := by simp [tailleGet, h]
      rw [h1]
      exact ⟨pyLower_idem s, h1⟩
  | some v =>
      have h1 : tailleGet (pyLower s) = v := by simp [tailleGet, h]
      rw [h1]
      have hm := strLookup_mem _ _ _ h
      simp only [taille_mapping, List.mem_cons, List.not_mem_nil, or_false,
        Prod.mk.injEq] at hm
      rcases hm with ⟨_, rfl⟩ | ⟨_, rfl⟩ | ⟨_, rfl⟩ | ⟨_, rfl⟩ | ⟨_, rfl⟩ | ⟨_, rfl⟩ |
        ⟨_, rfl⟩ | ⟨_, rfl⟩ <;> exact ⟨by decide, by decide⟩

/-! ## Characterization of the normalization stages on dict eye records -/

/-- Complete characterization of `stdStatus` on a dict eye record: an absent
or non-dict entry is skipped, a dict entry needs a string `status` (else the
source raises) which is rewritten to `statusNorm`. -/
theorem stdStatus_obj_eq (kvs : List (String × Json)) (f p a : String) :
    stdStatus (Json.obj kvs) f p a =
      match objLookup kvs f with
      | none => some (Json.obj kvs)
      | some (Json.obj d) =>
          match objLookup d "status" with
          | some (Json.str s) =>
              some (Json.obj (objSet kvs f
                (Json.obj (objSet d "status" (Json.str (statusNorm s p a))))))
          | some Json.null => none
          | some (Json.bool _) => none
          | some (Json.num _) => none
          | some (Json.arr _) => none
          | some (Json.obj _) => none
          | none => none
      | some Json.null => some (Json.obj kvs)
      | some (Json.bool _) => some (Json.obj kvs)
      | some (Json.num _) => some (Json.obj kvs)
      | some (Json.str _) => some (Json.obj kvs)
      | some (Json.arr _) => some (Json.obj kvs) := by
  unfold stdStatus
  cases h : objLookup kvs f with
  | none => simp [pyContains, hasKey, h, Option.bind]
  | some v =>
      cases v with
      | obj d =>
          cases hs : objLookup d "status" with
          | none => simp [pyContains, hasKey, h, hs, getItem, Option.bind]
          | some st =>
              cases st with
              | str s =>
                  simp only [pyContains, hasKey, h, Option.isSome_some, Option.bind,
                    if_true, getItem, hs, asStr, setItem, statusNorm]
                  by_cases hc : pyCapitalize s = p ∨ pyCapitalize s = a
                  · simp [hs, asStr, hc]
                  · simp [hs, asStr, hc, objSet_objSet_same]
              | null => simp [pyContains, hasKey, h, hs, getItem, asStr, Option.bind]
              | bool b => simp [pyContains, hasKey, h, hs, getItem, asStr, Option.bind]
              | num n => simp [pyContains, hasKey, h, hs, getItem, asStr, Option.bind]
              | arr xs => simp [pyContains, hasKey, h, hs, getItem, asStr, Option.bind]
              | obj d2 => simp [pyContains, hasKey, h, hs, getItem, asStr, Option.bind]
      | null => simp [pyContains, hasKey, h, getItem, Option.bind]
      | bool b => simp [pyContains, hasKey, h, getItem, Option.bind]
      | num n => simp [pyContains, hasKey, h, getItem, Option.bind]
      | str s => simp [pyContains, hasKey, h, getItem, Option.bind]
      | arr xs => simp [pyContains, hasKey, h, getItem, Option.bind]

theorem statusNorm_mem (s pres abs1 : String) :
    statusNorm s pres abs1 = pres ∨ statusNorm s pres abs1 = abs1 := by
  unfold statusNorm
  split_ifs with h1 h2
  · exact h1
  · exact Or.inl rfl
  · exact Or.inr rfl

/-- Complete characterization of `stdOedeme` on a dict eye record. -/
theorem stdOedeme_obj_eq (kvs : List (String × Json)) :
    stdOedeme (Json.obj kvs) =
      match objLookup kvs "oedeme" with
      | none => some (Json.obj kvs)
      | some (Json.obj d) =>
          match objLookup d "status" with
          | some (Json.str s) =>
              match objLookup d "taille" with
              | none => some (Json.obj (objSet kvs "oedeme" (Json.obj
                  (objSet d "status" (Json.str (statusNorm s "Présent" "Absent"))))))
              | some (Json.str t) => some (Json.obj (objSet kvs "oedeme" (Json.obj
                  (objSet (objSet d "status" (Json.str (statusNorm s "Présent" "Absent")))
                    "taille" (Json.str (tailleGet (pyLower t)))))))
              | some _ => none
          | some _ => none
          | none => none
      | some _ => some (Json.obj kvs) := by
  unfold stdOedeme
  cases h : objLookup kvs "oedeme" with
  | none => simp [pyContains, hasKey, h, Option.bind]
  | some v =>
      cases v with
      | obj d =>
          cases hs : objLookup d "status" with
          | none => simp [pyContains, hasKey, h, hs, getItem, Option.bind]
          | some st =>
              cases st with
              | str s =>
                  simp only [pyContains, hasKey, h, Option.isSome_some, if_true,
                    Option.bind_eq_bind, Option.some_bind, getItem, hs, asStr]
                  have hw : (if pyCapitalize s = "Présent" ∨ pyCapitalize s = "Absent"
                        then objSet d "status" (Json.str (pyCapitalize s))
                        else objSet (objSet d "status" (Json.str (pyCapitalize s))) "status"
                          (Json.str (if strContains (pyLower (pyCapitalize s)) "present"
                            then "Présent" else "Absent")))
                      = objSet d "status" (Json.str (statusNorm s "Présent" "Absent")) := by
                    unfold statusNorm
                    by_cases hc : pyCapitalize s = "Présent" ∨ pyCapitalize s = "Absent"
                    · simp [hc]
                    · simp [hc, objSet_objSet_same]
                  rw [hw, objLookup_objSet_ne d "status" "taille" _ (by decide)]
                  cases ht : objLookup d "taille" with
                  | none => simp [setItem]
                  | some tv =>
                      cases tv <;> simp [asStr, setItem, Option.bind]
              | null => simp [pyContains, hasKey, h, hs, getItem, asStr, Option.bind]
              | bool b => simp [pyContains, hasKey, h, hs, getItem, asStr, Option.bind]
              | num n => simp [pyContains, hasKey, h, hs, getItem, asStr, Option.bind]
              | arr xs => simp [pyContains, hasKey, h, hs, getItem, asStr, Option.bind]
              | obj d2 => simp [pyContains, hasKey, h, hs, getItem, asStr, Option.bind]
      | null => simp [pyContains, hasKey, h, getItem, Option.bind]
      | bool b => simp [pyContains, hasKey, h, getItem, Option.bind]
      | num n => simp [pyContains, hasKey, h, getItem, Option.bind]
      | str s => simp [pyContains, hasKey, h, getItem, Option.bind]
      | arr xs => simp [pyContains, hasKey, h, getItem, Option.bind]

/-- Complete characterization of `stdMembrane` on a dict eye record: an
absent field is skipped, a string field is rewritten to `membraneNorm` (the
no-token passthrough writes nothing, which coincides with writing the value
back), any other value raises on `.lower()`. -/
theorem stdMembrane_obj_eq (kvs : List (String × Json)) (f : String) :
    stdMembrane (Json.obj kvs) f =
      match objLookup kvs f with
      | none => some (Json.obj kvs)
      | some (Json.str s) => some (Json.obj (objSet kvs f (Json.str (membraneNorm s))))
      | some _ => none := by
  unfold stdMembrane
  cases h : objLookup kvs f with
  | none => simp [pyContains, hasKey, h, Option.bind]
  | some v =>
      cases v with
      | str s =>
          simp only [pyContains, hasKey, h, Option.isSome_some, if_true,
            Option.bind_eq_bind, Option.some_bind, getItem, asStr, setItem, membraneNorm]
          split_ifs <;> simp_all [objSet_lookup_eq kvs f _ h]
      | null => simp [pyContains, hasKey, h, getItem, asStr, Option.bind]
      | bool b => simp [pyContains, hasKey, h, getItem, asStr, Option.bind]
      | num n => simp [pyContains, hasKey, h, getItem, asStr, Option.bind]
      | arr xs => simp [pyContains, hasKey, h, getItem, asStr, Option.bind]
      | obj d => simp [pyContains, hasKey, h, getItem, asStr, Option.bind]

/-- Complete characterization of `stdEpaisseur` on a dict eye record: only a
string value is rewritten (to the structured per-sector record); everything
else, including an absent field, is left untouched. -/
theorem stdEpaisseur_obj_eq (kvs : List (String × Json)) :
    stdEpaisseur (Json.obj kvs) =
      match objLookup kvs "epaisseur_retinienne" with
      | some (Json.str s) =>
          some (Json.obj (objSet kvs "epaisseur_retinienne" (epaisseurObj s)))
      | _ => some (Json.obj kvs) := by
  unfold stdEpaisseur
  cases h : objLookup kvs "epaisseur_retinienne" with
  | none => simp [pyContains, hasKey, h, Option.bind]
  | some v =>
      cases v <;> simp [pyContains, hasKey, h, getItem, setItem, Option.bind]

/-! ## The per-eye normalization fails on every non-dict eye record -/

theorem stdStatus_str_eq (s f p a : String) :
    stdStatus (Json.str s) f p a =
      if strContains s f then none else some (Json.str s) := by
  unfold stdStatus
  by_cases hc : strContains s f <;>
    simp [pyContains, hc, getItem, Option.bind_eq_bind, Option.some_bind, Option.none_bind]

theorem stdOedeme_str_eq (s : String) :
    stdOedeme (Json.str s) =
      if strContains s "oedeme" then none else some (Json.str s) := by
  unfold stdOedeme
  by_cases hc : strContains s "oedeme" <;>
    simp [pyContains, hc, getItem, Option.bind_eq_bind, Option.some_bind, Option.none_bind]

theorem stdMembrane_str_eq (s f : String) :
    stdMembrane (Json.str s) f =
      if strContains s f then none else some (Json.str s) := by
  unfold stdMembrane
  by_cases hc : strContains s f <;>
    simp [pyContains, hc, getItem, Option.bind_eq_bind, Option.some_bind, Option.none_bind]

theorem stdEpaisseur_str_eq (s : String) :
    stdEpaisseur (Json.str s) =
      if strContains s "epaisseur_retinienne" then none else some (Json.str s) := by
  unfold stdEpaisseur
  by_cases hc : strContains s "epaisseur_retinienne" <;>
    simp [pyContains, hc, getItem, Option.bind_eq_bind, Option.some_bind, Option.none_bind]

theorem stdStatus_arr_eq (xs : List Json) (f p a : String) :
    stdStatus (Json.arr xs) f p a =
      if arrHas xs f then none else some (Json.arr xs) := by
  unfold stdStatus
  by_cases hc : arrHas xs f <;>
    simp [pyContains, hc, getItem, Option.bind_eq_bind, Option.some_bind, Option.none_bind]

theorem stdOedeme_arr_eq (xs : List Json) :
    stdOedeme (Json.arr xs) =
      if arrHas xs "oedeme" then none else some (Json.arr xs) := by
  unfold stdOedeme
  by_cases hc : arrHas xs "oedeme" <;>
    simp [pyContains, hc, getItem, Option.bind_eq_bind, Option.some_bind, Option.none_bind]

theorem stdMembrane_arr_eq (xs : List Json) (f : String) :
    stdMembrane (Json.arr xs) f =
      if arrHas xs f then none else some (Json.arr xs) := by
  unfold stdMembrane
  by_cases hc : arrHas xs f <;>
    simp [pyContains, hc, getItem, Option.bind_eq_bind, Option.some_bind, Option.none_bind]

theorem stdEpaisseur_arr_eq (xs : List Json) :
    stdEpaisseur (Json.arr xs) =
      if arrHas xs "epaisseur_retinienne" then none else some (Json.arr xs) := by
  unfold stdEpaisseur
  by_cases hc : arrHas xs "epaisseur_retinienne" <;>
    simp [pyContains, hc, getItem, Option.bind_eq_bind, Option.some_bind, Option.none_bind]

theorem fillDefaults_cons_absent_nonobj (e : Json) (k : String) (v : Json)
    (rest : List (String × Json)) (hb : pyContains e k = some false)
    (hset : setItem e k v = none) : fillDefaults e ((k, v) :: rest) = none := by
  simp [fillDefaults, hb, hset, Option.bind_eq_bind, Option.some_bind, Option.none_bind]

theorem fillDefaults_str (s : String) (h : strContains s "dril" = false) :
    fillDefaults (Json.str s) defaultEyeFields = none := by
  unfold defaultEyeFields
  exact fillDefaults_cons_absent_nonobj _ _ _ _ (by simp [pyContains, h]) rfl

theorem fillDefaults_arr (xs : List Json) (h : arrHas xs "dril" = false) :
    fillDefaults (Json.arr xs) defaultEyeFields = none := by
  unfold defaultEyeFields
  exact fillDefaults_cons_absent_nonobj _ _ _ _ (by simp [pyContains, h]) rfl

/-- `processEye` fails (the source raises) on every non-dict eye record:
a string or list either raises a `TypeError` when a matched field name is
indexed, or reaches the defaulting loop whose assignment raises. -/
theorem processEye_nonobj (e : Json) (h : ∀ kvs, e ≠ Json.obj kvs) :
    processEye e = none := by
  cases e with
  | null => simp [processEye, stdStatus, pyContains, Option.bind_eq_bind, Option.none_bind]
  | bool b => simp [processEye, stdStatus, pyContains, Option.bind_eq_bind, Option.none_bind]
  | num n => simp [processEye, stdStatus, pyContains, Option.bind_eq_bind, Option.none_bind]
  | obj kvs => exact absurd rfl (h kvs)
  | str s =>
      unfold processEye
      cases h1 : strContains s "dril" with
      | true => simp [stdStatus_str_eq, h1, Option.bind_eq_bind, Option.none_bind]
      | false =>
          cases h2 : strContains s "oedeme" with
          | true => simp [stdStatus_str_eq, stdOedeme_str_eq, h1, h2,
              Option.bind_eq_bind, Option.some_bind, Option.none_bind]
          | false =>
              cases h3 : strContains s "mle" with
              | true => simp [stdStatus_str_eq, stdOedeme_str_eq, stdMembrane_str_eq,
                  h1, h2, h3, Option.bind_eq_bind, Option.some_bind, Option.none_bind]
              | false =>
                  cases h4 : strContains s "ze" with
                  | true => simp [stdStatus_str_eq, stdOedeme_str_eq, stdMembrane_str_eq,
                      h1, h2, h3, h4, Option.bind_eq_bind, Option.some_bind, Option.none_bind]
                  | false =>
                      cases h5 : strContains s "points_hyperreflectifs" with
                      | true => simp [stdStatus_str_eq, stdOedeme_str_eq, stdMembrane_str_eq,
                          h1, h2, h3, h4, h5,
                          Option.bind_eq_bind, Option.some_bind, Option.none_bind]
                      | false =>
                          simp [stdStatus_str_eq, stdOedeme_str_eq, stdMembrane_str_eq,
                            stdEpaisseur_str_eq, h1, h2, h3, h4, h5, fillDefaults_str s h1,
                            Option.bind_eq_bind, Option.some_bind, Option.none_bind]
  | arr xs =>
      unfold processEye
      cases h1 : arrHas xs "dril" with
      | true => simp [stdStatus_arr_eq, h1, Option.bind_eq_bind, Option.none_bind]
      | false =>
          cases h2 : arrHas xs "oedeme" with
          | true => simp [stdStatus_arr_eq, stdOedeme_arr_eq, h1, h2,
              Option.bind_eq_bind, Option.some_bind, Option.none_bind]
          | false =>
              cases h3 : arrHas xs "mle" with
              | true => simp [stdStatus_arr_eq, stdOedeme_arr_eq, stdMembrane_arr_eq,
                  h1, h2, h3, Option.bind_eq_bind, Option.some_bind, Option.none_bind]
              | false =>
                  cases h4 : arrHas xs "ze" with
                  | true => simp [stdStatus_arr_eq, stdOedeme_arr_eq, stdMembrane_arr_eq,
                      h1, h2, h3, h4, Option.bind_eq_bind, Option.some_bind, Option.none_bind]
                  | false =>
                      cases h5 : arrHas xs "points_hyperreflectifs" with
                      | true => simp [stdStatus_arr_eq, stdOedeme_arr_eq, stdMembrane_arr_eq,
                          h1, h2, h3, h4, h5,
                          Option.bind_eq_bind, Option.some_bind, Option.none_bind]
                      | false =>
                          simp [stdStatus_arr_eq, stdOedeme_arr_eq, stdMembrane_arr_eq,
                            stdEpaisseur_arr_eq, h1, h2, h3, h4, h5, fillDefaults_arr xs h1,
                            Option.bind_eq_bind, Option.some_bind, Option.none_bind]

/-! ## Lemmas about the defaulting loop on dict eye records -/

theorem hasKey_of_mem (l : List (String × Json)) (k : String) (d : Json)
    (h : (k, d) ∈ l) : hasKey l k = true := by
  induction l with
  | nil => simp at h
  | cons p rest ih =>
      obtain ⟨k1, v1⟩ := p
      rcases List.mem_cons.mp h with heq | hmem
      · obtain ⟨rfl, rfl⟩ := Prod.mk.injEq .. ▸ heq
        simp [hasKey, objLookup]
      · by_cases hk : k1 = k
        · simp [hasKey, objLookup, hk]
        · simp [hasKey, objLookup, hk] at ih ⊢
          exact ih hmem

/-- The keys of a constant field list are pairwise distinct. -/
def keysDisjoint : List (String × Json) → Bool
  | [] => true
  | (k, _) :: rest => !(hasKey rest k) && keysDisjoint rest

/-- When every default key is already present, the defaulting loop is a
no-op. -/
theorem fillDefaults_allPresent (kvs : List (String × Json))
    (defs : List (String × Json)) (h : ∀ p ∈ defs, hasKey kvs p.1 = true) :
    fillDefaults (Json.obj kvs) defs = some (Json.obj kvs) := by
  induction defs with
  | nil => rfl
  | cons p rest ih =>
      obtain ⟨k, v⟩ := p
      have hk := h (k, v) (List.mem_cons_self _ _)
      simp only [fillDefaults, pyContains, hk, if_true,
        Option.bind_eq_bind, Option.some_bind]
      exact ih (fun q hq => h q (List.mem_cons_of_mem _ hq))

/-- On a dict eye record the defaulting loop always succeeds; the result
keeps every present binding and maps every absent default key to its default
value. -/
theorem fillDefaults_obj_spec (defs : List (String × Json))
    (hdisj : keysDisjoint defs = true) (kvs : List (String × Json)) :
    ∃ kvs2, fillDefaults (Json.obj kvs) defs = some (Json.obj kvs2) ∧
      (∀ k v, objLookup kvs k = some v → objLookup kvs2 k = some v) ∧
      (∀ k d, (k, d) ∈ defs → objLookup kvs k = none → objLookup kvs2 k = some d) := by
  induction defs generalizing kvs with
  | nil => exact ⟨kvs, rfl, fun _ _ hv => hv, by simp⟩
  | cons p rest ih =>
      obtain ⟨k0, d0⟩ := p
      simp only [keysDisjoint, Bool.and_eq_true, Bool.not_eq_true'] at hdisj
      obtain ⟨hk0, hrest⟩ := hdisj
      cases hb : hasKey kvs k0 with
      | true =>
          obtain ⟨kvs2, heq, h1, h2⟩ := ih hrest kvs
          refine ⟨kvs2, ?_, h1, ?_⟩
          · simp only [fillDefaults, pyContains, hb, if_true,
              Option.bind_eq_bind, Option.some_bind]
            exact heq
          · intro k d hmem hnone
            rcases List.mem_cons.mp hmem with heq2 | hmem2
            · obtain ⟨rfl, rfl⟩ := Prod.mk.injEq .. ▸ heq2
              simp [hasKey, hnone] at hb
            · exact h2 k d hmem2 hnone
      | false =>
          obtain ⟨kvs2, heq, h1, h2⟩ := ih hrest (objSet kvs k0 d0)
          have hstep : fillDefaults (Json.obj kvs) ((k0, d0) :: rest) =
              fillDefaults (Json.obj (objSet kvs k0 d0)) rest := by
            simp [fillDefaults, pyContains, hb, setItem,
              Option.bind_eq_bind, Option.some_bind]
          refine ⟨kvs2, hstep ▸ heq, ?_, ?_⟩
          · intro k v hv
            have hk : k ≠ k0 := by
              intro hkk
              subst hkk
              simp [hasKey, hv] at hb
            exact h1 k v ((objLookup_objSet_ne kvs k0 k d0 hk) ▸ hv)
          · intro k d hmem hnone
            rcases List.mem_cons.mp hmem with heq2 | hmem2
            · obtain ⟨rfl, rfl⟩ := Prod.mk.injEq .. ▸ heq2
              exact h1 k d (objLookup_objSet_self kvs k d)
            · have hk : k ≠ k0 := by
                intro hkk
                subst hkk
                simp [hasKey_of_mem rest k d hmem2] at hk0
              exact h2 k d hmem2 ((objLookup_objSet_ne kvs k0 k d0 hk) ▸ hnone)

/-! ## Normal form of an eye record after one pass of the normalizer -/

/-- A normalized status-carrying entry (`dril`, `oedeme`,
`points_hyperreflectifs`): present, and when it is a dict its `status` is one
of the two canonical labels. -/
def statusEntryOK (v : Option Json) (pres abs1 : String) : Bool :=
  match v with
  | none => false
  | some (Json.obj d) =>
      match objLookup d "status" with
      | some (Json.str s) => s == pres || s == abs1
      | _ => false
  | some _ => true

/-- A normalized `taille` sub-entry: absent, or a string fixed by a further
lower-case-and-translate pass. -/
def tailleOK (v : Option Json) : Bool :=
  match v with
  | some (Json.obj d) =>
      match objLookup d "taille" with
      | none => true
      | some (Json.str t) => pyLower t == t && tailleGet t == t
      | some _ => false
  | _ => true

/-- A normalized membrane field (`mle`, `ze`): a string that the token
cascade either maps to itself or does not touch. -/
def membraneOK (v : Option Json) : Bool :=
  match v with
  | some (Json.str m) =>
      if strContains (pyLower m) "continu" then m == "Continue"
      else if strContains (pyLower m) "partiel" then m == "Partiellement interrompue"
      else if strContains (pyLower m) "complet" then m == "Complètement interrompue"
      else true
  | _ => false

/-- A normalized `epaisseur_retinienne` field: present and not a string. -/
def epaisseurOK : Option Json → Bool
  | none => false
  | some (Json.str _) => false
  | some _ => true

/-- The normal form that one pass of the per-eye normalization establishes
(and that a second pass maps to itself). -/
def eyeNormalized (e : Json) : Bool :=
  match e with
  | Json.obj kvs =>
      statusEntryOK (objLookup kvs "dril") "Présente" "Absente" &&
      statusEntryOK (objLookup kvs "oedeme") "Présent" "Absent" &&
      tailleOK (objLookup kvs "oedeme") &&
      membraneOK (objLookup kvs "mle") &&
      membraneOK (objLookup kvs "ze") &&
      statusEntryOK (objLookup kvs "points_hyperreflectifs") "Présents" "Absents" &&
      epaisseurOK (objLookup kvs "epaisseur_retinienne") &&
      hasKey kvs "briding" && hasKey kvs "decollement"
  | _ => false

theorem membraneOK_norm (s : String) :
    membraneOK (some (Json.str (membraneNorm s))) = true := by
  unfold membraneNorm
  split_ifs with c1 c2 c3
  · decide
  · decide
  · decide
  · simp [membraneOK, c1, c2, c3]

theorem membraneNorm_fix (m : String) (h : membraneOK (some (Json.str m)) = true) :
    membraneNorm m = m := by
  unfold membraneOK at h
  unfold membraneNorm
  split_ifs at h ⊢ <;> simp_all

theorem statusNorm_fix (s p a : String) (hcap : pyCapitalize s = s)
    (hs : s = p ∨ s = a) : statusNorm s p a = s := by
  unfold statusNorm
  rw [hcap]
  simp [hs]

/-! ## Inversion lemmas: what a successful stage says about its output -/

theorem stdStatus_inv (kvs : List (String × Json)) (f p a : String) (e' : Json)
    (h : stdStatus (Json.obj kvs) f p a = some e') :
    ∃ kvs', e' = Json.obj kvs' ∧
      (∀ k, k ≠ f → objLookup kvs' k = objLookup kvs k) ∧
      (objLookup kvs f = none → objLookup kvs' f = none) ∧
      (∀ v, objLookup kvs f = some v → Json.isObj v = false →
        objLookup kvs' f = some v) ∧
      (∀ d, objLookup kvs f = some (Json.obj d) →
        ∃ s, objLookup d "status" = some (Json.str s) ∧
          objLookup kvs' f =
            some (Json.obj (objSet d "status" (Json.str (statusNorm s p a))))) := by
  rw [stdStatus_obj_eq] at h
  cases hf : objLookup kvs f with
  | none =>
      rw [hf] at h
      simp at h
      subst h
      refine ⟨kvs, rfl, fun _ _ => rfl, fun _ => hf, ?_, ?_⟩
      · intro v hv hne
        exact absurd hv (by simp)
      · intro d2 hd2
        exact absurd hd2 (by simp)
  | some v =>
      rw [hf] at h
      cases v with
      | obj d =>
          simp at h
          cases hs : objLookup d "status" with
          | none => rw [hs] at h; simp at h
          | some st =>
              cases st with
              | str s =>
                  rw [hs] at h
                  simp at h
                  subst h
                  refine ⟨objSet kvs f (Json.obj (objSet d "status"
                    (Json.str (statusNorm s p a)))), rfl,
                    fun k hk => objLookup_objSet_ne kvs f k _ hk, ?_, ?_, ?_⟩
                  · intro hn
                    exact absurd hn (by simp)
                  · intro v hv hne
                    injection hv with hv2
                    subst hv2
                    simp [Json.isObj] at hne
                  · intro d2 hd2
                    injection hd2 with hd3
                    injection hd3 with hd4
                    subst hd4
                    exact ⟨s, hs, objLookup_objSet_self kvs f _⟩
              | null => rw [hs] at h; simp at h
              | bool b => rw [hs] at h; simp at h
              | num n => rw [hs] at h; simp at h
              | arr xs => rw [hs] at h; simp at h
              | obj dd => rw [hs] at h; simp at h
      | null =>
          simp at h
          subst h
          refine ⟨kvs, rfl, fun _ _ => rfl, ?_, ?_, ?_⟩
          · intro hn
            exact absurd hn (by simp)
          · intro v hv hne
            injection hv with hv2
            subst hv2
            exact hf
          · intro d2 hd2
            exact absurd hd2 (by simp)
      | bool b =>
          simp at h
          subst h
          refine ⟨kvs, rfl, fun _ _ => rfl, ?_, ?_, ?_⟩
          · intro hn
            exact absurd hn (by simp)
          · intro v hv hne
            injection hv with hv2
            subst hv2
            exact hf
          · intro d2 hd2
            exact absurd hd2 (by simp)
      | num n =>
          simp at h
          subst h
          refine ⟨kvs, rfl, fun _ _ => rfl, ?_, ?_, ?_⟩
          · intro hn
            exact absurd hn (by simp)
          · intro v hv hne
            injection hv with hv2
            subst hv2
            exact hf
          · intro d2 hd2
            exact absurd hd2 (by simp)
      | str s =>
          simp at h
          subst h
          refine ⟨kvs, rfl, fun _ _ => rfl, ?_, ?_, ?_⟩
          · intro hn
            exact absurd hn (by simp)
          · intro v hv hne
            injection hv with hv2
            subst hv2
            exact hf
          · intro d2 hd2
            exact absurd hd2 (by simp)
      | arr xs =>
          simp at h
          subst h
          refine ⟨kvs, rfl, fun _ _ => rfl, ?_, ?_, ?_⟩
          · intro hn
            exact absurd hn (by simp)
          · intro v hv hne
            injection hv with hv2
            subst hv2
            exact hf
          · intro d2 hd2
            exact absurd hd2 (by simp)

theorem stdOedeme_inv (kvs : List (String × Json)) (e' : Json)
    (h : stdOedeme (Json.obj kvs) = some e') :
    ∃ kvs', e' = Json.obj kvs' ∧
      (∀ k, k ≠ "oedeme" → objLookup kvs' k = objLookup kvs k) ∧
      (objLookup kvs "oedeme" = none → objLookup kvs' "oedeme" = none) ∧
      (∀ v, objLookup kvs "oedeme" = some v → Json.isObj v = false →
        objLookup kvs' "oedeme" = some v) ∧
      (∀ d, objLookup kvs "oedeme" = some (Json.obj d) →
        ∃ s, objLookup d "status" = some (Json.str s) ∧
          ((objLookup d "taille" = none ∧
            objLookup kvs' "oedeme" = some (Json.obj (objSet d "status"
              (Json.str (statusNorm s "Présent" "Absent"))))) ∨
          (∃ t, objLookup d "taille" = some (Json.str t) ∧
            objLookup kvs' "oedeme" = some (Json.obj (objSet
              (objSet d "status" (Json.str (statusNorm s "Présent" "Absent")))
              "taille" (Json.str (tailleGet (pyLower t)))))))) := by
  rw [stdOedeme_obj_eq] at h
  cases hf : objLookup kvs "oedeme" with
  | none =>
      rw [hf] at h
      simp at h
      subst h
      refine ⟨kvs, rfl, fun _ _ => rfl, fun _ => hf, ?_, ?_⟩
      · intro v hv hne
        exact absurd hv (by simp)
      · intro d2 hd2
        exact absurd hd2 (by simp)
  | some v =>
      rw [hf] at h
      cases v with
      | obj d =>
          simp at h
          cases hs : objLookup d "status" with
          | none => rw [hs] at h; simp at h
          | some st =>
              cases st with
              | str s =>
                  rw [hs] at h
                  simp at h
                  cases ht : objLookup d "taille" with
                  | none =>
                      rw [ht] at h
                      simp at h
                      subst h
                      refine ⟨_, rfl,
                        fun k hk => objLookup_objSet_ne kvs "oedeme" k _ hk, ?_, ?_, ?_⟩
                      · intro hn
                        exact absurd hn (by simp)
                      · intro v hv hne
                        injection hv with hv2
                        subst hv2
                        simp [Json.isObj] at hne
                      · intro d2 hd2
                        injection hd2 with hd3
                        injection hd3 with hd4
                        subst hd4
                        exact ⟨s, hs, Or.inl ⟨ht, objLookup_objSet_self kvs "oedeme" _⟩⟩
                  | some tv =>
                      rw [ht] at h
                      cases tv with
                      | str t =>
                          simp at h
                          subst h
                          refine ⟨_, rfl,
                            fun k hk => objLookup_objSet_ne kvs "oedeme" k _ hk, ?_, ?_, ?_⟩
                          · intro hn
                            exact absurd hn (by simp)
                          · intro v hv hne
                            injection hv with hv2
                            subst hv2
                            simp [Json.isObj] at hne
                          · intro d2 hd2
                            injection hd2 with hd3
                            injection hd3 with hd4
                            subst hd4
                            exact ⟨s, hs,
                              Or.inr ⟨t, ht, objLookup_objSet_self kvs "oedeme" _⟩⟩
                      | null => simp at h
                      | bool b => simp at h
                      | num n => simp at h
                      | arr xs => simp at h
                      | obj dd => simp at h
              | null => rw [hs] at h; simp at h
              | bool b => rw [hs] at h; simp at h
              | num n => rw [hs] at h; simp at h
              | arr xs => rw [hs] at h; simp at h
              | obj dd => rw [hs] at h; simp at h
      | null =>
          simp at h
          subst h
          refine ⟨kvs, rfl, fun _ _ => rfl, ?_, ?_, ?_⟩
          · intro hn
            exact absurd hn (by simp)
          · intro v hv hne
            injection hv with hv2
            subst hv2
            exact hf
          · intro d2 hd2
            exact absurd hd2 (by simp)
      | bool b =>
          simp at h
          subst h
          refine ⟨kvs, rfl, fun _ _ => rfl, ?_, ?_, ?_⟩
          · intro hn
            exact absurd hn (by simp)
          · intro v hv hne
            injection hv with hv2
            subst hv2
            exact hf
          · intro d2 hd2
            exact absurd hd2 (by simp)
      | num n =>
          simp at h
          subst h
          refine ⟨kvs, rfl, fun _ _ => rfl, ?_, ?_, ?_⟩
          · intro hn
            exact absurd hn (by simp)
          · intro v hv hne
            injection hv with hv2
            subst hv2
            exact hf
          · intro d2 hd2
            exact absurd hd2 (by simp)
      | str s =>
          simp at h
          subst h
          refine ⟨kvs, rfl, fun _ _ => rfl, ?_, ?_, ?_⟩
          · intro hn
            exact absurd hn (by simp)
          · intro v hv hne
            injection hv with hv2
            subst hv2
            exact hf
          · intro d2 hd2
            exact absurd hd2 (by simp)
      | arr xs =>
          simp at h
          subst h
          refine ⟨kvs, rfl, fun _ _ => rfl, ?_, ?_, ?_⟩
          · intro hn
            exact absurd hn (by simp)
          · intro v hv hne
            injection hv with hv2
            subst hv2
            exact hf
          · intro d2 hd2
            exact absurd hd2 (by simp)

theorem stdMembrane_inv (kvs : List (String × Json)) (f : String) (e' : Json)
    (h : stdMembrane (Json.obj kvs) f = some e') :
    ∃ kvs', e' = Json.obj kvs' ∧
      (∀ k, k ≠ f → objLookup kvs' k = objLookup kvs k) ∧
      (objLookup kvs f = none → objLookup kvs' f = none) ∧
      (∀ v, objLookup kvs f = some v → ∃ s, v = Json.str s) ∧
      (∀ s, objLookup kvs f = some (Json.str s) →
        objLookup kvs' f = some (Json.str (membraneNorm s))) := by
  rw [stdMembrane_obj_eq] at h
  cases hf : objLookup kvs f with
  | none =>
      rw [hf] at h
      simp at h
      subst h
      refine ⟨kvs, rfl, fun _ _ => rfl, fun _ => hf, ?_, ?_⟩
      · intro v hv
        exact absurd hv (by simp)
      · intro s hs
        exact absurd hs (by simp)
  | some v =>
      rw [hf] at h
      cases v with
      | str s =>
          simp at h
          subst h
          refine ⟨_, rfl, fun k hk => objLookup_objSet_ne kvs f k _ hk, ?_, ?_, ?_⟩
          · intro hn
            exact absurd hn (by simp)
          · intro v hv
            injection hv with hv2
            exact ⟨s, hv2.symm⟩
          · intro s2 hs2
            injection hs2 with hs3
            injection hs3 with hs4
            subst hs4
            exact objLookup_objSet_self kvs f _
      | null => simp at h
      | bool b => simp at h
      | num n => simp at h
      | arr xs => simp at h
      | obj d => simp at h

theorem stdEpaisseur_inv (kvs : List (String × Json)) (e' : Json)
    (h : stdEpaisseur (Json.obj kvs) = some e') :
    ∃ kvs', e' = Json.obj kvs' ∧
      (∀ k, k ≠ "epaisseur_retinienne" → objLookup kvs' k = objLookup kvs k) ∧
      (objLookup kvs "epaisseur_retinienne" = none →
        objLookup kvs' "epaisseur_retinienne" = none) ∧
      (∀ s, objLookup kvs "epaisseur_retinienne" = some (Json.str s) →
        objLookup kvs' "epaisseur_retinienne" = some (epaisseurObj s)) ∧
      (∀ v, objLookup kvs "epaisseur_retinienne" = some v → Json.isStr v = false →
        objLookup kvs' "epaisseur_retinienne" = some v) := by
  rw [stdEpaisseur_obj_eq] at h
  cases hf : objLookup kvs "epaisseur_retinienne" with
  | none =>
      rw [hf] at h
      simp at h
      subst h
      refine ⟨kvs, rfl, fun _ _ => rfl, fun _ => hf, ?_, ?_⟩
      · intro s hs
        exact absurd hs (by simp)
      · intro v hv hne
        exact absurd hv (by simp)
  | some v =>
      rw [hf] at h
      cases v with
      | str s =>
          simp at h
          subst h
          refine ⟨_, rfl,
            fun k hk => objLookup_objSet_ne kvs "epaisseur_retinienne" k _ hk, ?_, ?_, ?_⟩
          · intro hn
            exact absurd hn (by simp)
          · intro s2 hs2
            injection hs2 with hs3
            injection hs3 with hs4
            subst hs4
            exact objLookup_objSet_self kvs "epaisseur_retinienne" _
          · intro v hv hne
            injection hv with hv2
            subst hv2
            simp [Json.isStr] at hne
      | null =>
          simp at h
          subst h
          refine ⟨kvs, rfl, fun _ _ => rfl, ?_, ?_, ?_⟩
          · intro hn
            exact absurd hn (by simp)
          · intro s2 hs2
            exact absurd hs2 (hf ▸ by simp [hf])
          · intro v hv hne
            injection hv with hv2
            subst hv2
            exact hf
      | bool b =>
          simp at h
          subst h
          refine ⟨kvs, rfl, fun _ _ => rfl, ?_, ?_, ?_⟩
          · intro hn
            exact absurd hn (by simp)
          · intro s2 hs2
            injection hs2 with hs3
            exact absurd hs3 (by simp)
          · intro v hv hne
            injection hv with hv2
            subst hv2
            exact hf
      | num n =>
          simp at h
          subst h
          refine ⟨kvs, rfl, fun _ _ => rfl, ?_, ?_, ?_⟩
          · intro hn
            exact absurd hn (by simp)
          · intro s2 hs2
            injection hs2 with hs3
            exact absurd hs3 (by simp)
          · intro v hv hne
            injection hv with hv2
            subst hv2
            exact hf
      | arr xs =>
          simp at h
          subst h
          refine ⟨kvs, rfl, fun _ _ => rfl, ?_, ?_, ?_⟩
          · intro hn
            exact absurd hn (by simp)
          · intro s2 hs2
            injection hs2 with hs3
            exact absurd hs3 (by simp)
          · intro v hv hne
            injection hv with hv2
            subst hv2
            exact hf
      | obj d =>
          simp at h
          subst h
          refine ⟨kvs, rfl, fun _ _ => rfl, ?_, ?_, ?_⟩
          · intro hn
            exact absurd hn (by simp)
          · intro s2 hs2
            injection hs2 with hs3
            exact absurd hs3 (by simp)
          · intro v hv hne
            injection hv with hv2
            subst hv2
            exact hf

/-! ## One pass of the per-eye normalization establishes the normal form -/

theorem processEye_steps (e out : Json) (h : processEye e = some out) :
    ∃ e1 e2 e3 e4 e5 e6,
      stdStatus e "dril" "Présente" "Absente" = some e1 ∧
      stdOedeme e1 = some e2 ∧
      stdMembrane e2 "mle" = some e3 ∧
      stdMembrane e3 "ze" = some e4 ∧
      stdStatus e4 "points_hyperreflectifs" "Présents" "Absents" = some e5 ∧
      stdEpaisseur e5 = some e6 ∧
      fillDefaults e6 defaultEyeFields = some out := by
  unfold processEye at h
  simp only [Option.bind_eq_bind, Option.bind_eq_some] at h
  obtain ⟨e1, h1, e2, h2, e3, h3, e4, h4, e5, h5, e6, h6, h7⟩ := h
  exact ⟨e1, e2, e3, e4, e5, e6, h1, h2, h3, h4, h5, h6, h7⟩

theorem statusEntryOK_of_nonobj (v : Json) (p a : String)
    (h : Json.isObj v = false) : statusEntryOK (some v) p a = true := by
  cases v with
  | obj d => simp [Json.isObj] at h
  | null => rfl
  | bool b => rfl
  | num n => rfl
  | str s => rfl
  | arr xs => rfl

theorem statusEntryOK_norm (d : List (String × Json)) (s p a : String) :
    statusEntryOK (some (Json.obj (objSet d "status" (Json.str (statusNorm s p a))))) p a
      = true := by
  simp only [statusEntryOK, objLookup_objSet_self]
  rcases statusNorm_mem s p a with h | h <;> simp [h]

theorem tailleOK_of_nonobj (v : Json) (h : Json.isObj v = false) :
    tailleOK (some v) = true := by
  cases v with
  | obj d => simp [Json.isObj] at h
  | null => rfl
  | bool b => rfl
  | num n => rfl
  | str s => rfl
  | arr xs => rfl

theorem epaisseurOK_of_nonstr (v : Json) (h : Json.isStr v = false) :
    epaisseurOK (some v) = true := by
  cases v with
  | str s => simp [Json.isStr] at h
  | null => rfl
  | bool b => rfl
  | num n => rfl
  | obj d => rfl
  | arr xs => rfl

theorem processEye_normalized (e out : Json) (h : processEye e = some out) :
    eyeNormalized out = true := by
  obtain ⟨kvs0, rfl⟩ : ∃ kvs0, e = Json.obj kvs0 := by
    cases e with
    | obj kvs => exact ⟨kvs, rfl⟩
    | null => rw [processEye_nonobj _ (by intro kvs hk; cases hk)] at h; cases h
    | bool b => rw [processEye_nonobj _ (by intro kvs hk; cases hk)] at h; cases h
    | num n => rw [processEye_nonobj _ (by intro kvs hk; cases hk)] at h; cases h
    | str s => rw [processEye_nonobj _ (by intro kvs hk; cases hk)] at h; cases h
    | arr xs => rw [processEye_nonobj _ (by intro kvs hk; cases hk)] at h; cases h
  obtain ⟨e1, e2, e3, e4, e5, e6, h1, h2, h3, h4, h5, h6, h7⟩ :=
    processEye_steps _ _ h
  obtain ⟨kvs1, rfl, fr1, n1, nv1, ob1⟩ := stdStatus_inv kvs0 _ _ _ _ h1
  obtain ⟨kvs2, rfl, fr2, n2, nv2, ob2⟩ := stdOedeme_inv kvs1 _ h2
  obtain ⟨kvs3, rfl, fr3, n3, st3, sv3⟩ := stdMembrane_inv kvs2 "mle" _ h3
  obtain ⟨kvs4, rfl, fr4, n4, st4, sv4⟩ := stdMembrane_inv kvs3 "ze" _ h4
  obtain ⟨kvs5, rfl, fr5, n5, nv5, ob5⟩ := stdStatus_inv kvs4 _ _ _ _ h5
  obtain ⟨kvs6, rfl, fr6, n6, sv6, ov6⟩ := stdEpaisseur_inv kvs5 _ h6
  obtain ⟨kvs7, hfill, fp, fd⟩ := fillDefaults_obj_spec defaultEyeFields (by decide) kvs6
  rw [hfill] at h7
  injection h7 with h7
  subst h7
  have memDril : ("dril", Json.obj [("status", Json.str "Absente"), ("extent", Json.str "")])
      ∈ defaultEyeFields := by simp [defaultEyeFields]
  have memOed : ("oedeme", Json.obj [("status", Json.str "Absent"),
      ("nb_logette", Json.str ""), ("taille", Json.str ""), ("localisation", Json.str "")])
      ∈ defaultEyeFields := by simp [defaultEyeFields]
  have memMle : ("mle", Json.str "Continue") ∈ defaultEyeFields := by
    simp [defaultEyeFields]
  have memZe : ("ze", Json.str "Continue") ∈ defaultEyeFields := by
    simp [defaultEyeFields]
  have memPts : ("points_hyperreflectifs", Json.obj [("status", Json.str "Absents"),
      ("nombre", Json.str ""), ("localisation", Json.str "")]) ∈ defaultEyeFields := by
    simp [defaultEyeFields]
  have memEp : ("epaisseur_retinienne", Json.obj [("central", Json.str ""),
      ("superieur", Json.str ""), ("inferieur", Json.str ""), ("nasal", Json.str ""),
      ("temporal", Json.str "")]) ∈ defaultEyeFields := by simp [defaultEyeFields]
  have memBr : ("briding", Json.str "Absent") ∈ defaultEyeFields := by
    simp [defaultEyeFields]
  have memDc : ("decollement", Json.str "Absent") ∈ defaultEyeFields := by
    simp [defaultEyeFields]
  -- transport each field of interest down to `kvs6`
  have hd : objLookup kvs6 "dril" = objLookup kvs1 "dril" := by
    rw [fr6 _ (by decide), fr5 _ (by decide), fr4 _ (by decide), fr3 _ (by decide),
      fr2 _ (by decide)]
  have ho : objLookup kvs6 "oedeme" = objLookup kvs2 "oedeme" := by
    rw [fr6 _ (by decide), fr5 _ (by decide), fr4 _ (by decide), fr3 _ (by decide)]
  have hm : objLookup kvs6 "mle" = objLookup kvs3 "mle" := by
    rw [fr6 _ (by decide), fr5 _ (by decide), fr4 _ (by decide)]
  have hz : objLookup kvs6 "ze" = objLookup kvs4 "ze" := by
    rw [fr6 _ (by decide), fr5 _ (by decide)]
  have hp : objLookup kvs6 "points_hyperreflectifs" =
      objLookup kvs5 "points_hyperreflectifs" := by
    rw [fr6 _ (by decide)]
  have hb : objLookup kvs6 "briding" = objLookup kvs0 "briding" := by
    rw [fr6 _ (by decide), fr5 _ (by decide), fr4 _ (by decide), fr3 _ (by decide),
      fr2 _ (by decide), fr1 _ (by decide)]
  have hdc : objLookup kvs6 "decollement" = objLookup kvs0 "decollement" := by
    rw [fr6 _ (by decide), fr5 _ (by decide), fr4 _ (by decide), fr3 _ (by decide),
      fr2 _ (by decide), fr1 _ (by decide)]
  -- the dril entry
  have cdril : statusEntryOK (objLookup kvs7 "dril") "Présente" "Absente" = true := by
    cases hdr : objLookup kvs0 "dril" with
    | none =>
        have h6d : objLookup kvs6 "dril" = none := by rw [hd]; exact n1 hdr
        rw [fd _ _ memDril h6d]
        decide
    | some w =>
        cases w with
        | obj d =>
            obtain ⟨s, hsst, h1d⟩ := ob1 d hdr
            rw [fp "dril" _ (hd.trans h1d)]
            exact statusEntryOK_norm d s _ _
        | null =>
            rw [fp "dril" _ (hd.trans (nv1 _ hdr rfl))]
            rfl
        | bool b =>
            rw [fp "dril" _ (hd.trans (nv1 _ hdr rfl))]
            rfl
        | num n =>
            rw [fp "dril" _ (hd.trans (nv1 _ hdr rfl))]
            rfl
        | str s =>
            rw [fp "dril" _ (hd.trans (nv1 _ hdr rfl))]
            rfl
        | arr xs =>
            rw [fp "dril" _ (hd.trans (nv1 _ hdr rfl))]
            rfl
  -- the oedeme entry: status and taille
  have coedeme : statusEntryOK (objLookup kvs7 "oedeme") "Présent" "Absent" = true ∧
      tailleOK (objLookup kvs7 "oedeme") = true := by
    cases hoe : objLookup kvs1 "oedeme" with
    | none =>
        have h6o : objLookup kvs6 "oedeme" = none := by rw [ho]; exact n2 hoe
        rw [fd _ _ memOed h6o]
        exact ⟨by decide, by decide⟩
    | some w =>
        cases w with
        | obj d =>
            obtain ⟨s, hsst, hrest⟩ := ob2 d hoe
            rcases hrest with ⟨ht, h2o⟩ | ⟨t, ht, h2o⟩
            · rw [fp "oedeme" _ (ho.trans h2o)]
              constructor
              · exact statusEntryOK_norm d s _ _
              · simp [tailleOK,
                  objLookup_objSet_ne d "status" "taille" _ (by decide), ht]
            · rw [fp "oedeme" _ (ho.trans h2o)]
              constructor
              · simp only [statusEntryOK,
                  objLookup_objSet_ne (objSet d "status"
                    (Json.str (statusNorm s "Présent" "Absent"))) "taille" "status" _
                    (by decide),
                  objLookup_objSet_self]
                rcases statusNorm_mem s "Présent" "Absent" with hu | hu <;> simp [hu]
              · simp only [tailleOK, objLookup_objSet_self]
                obtain ⟨hl, hg⟩ := tailleGet_fix t
                simp [hl, hg]
        | null =>
            rw [fp "oedeme" _ (ho.trans (nv2 _ hoe rfl))]
            exact ⟨rfl, rfl⟩
        | bool b =>
            rw [fp "oedeme" _ (ho.trans (nv2 _ hoe rfl))]
            exact ⟨rfl, rfl⟩
        | num n =>
            rw [fp "oedeme" _ (ho.trans (nv2 _ hoe rfl))]
            exact ⟨rfl, rfl⟩
        | str s =>
            rw [fp "oedeme" _ (ho.trans (nv2 _ hoe rfl))]
            exact ⟨rfl, rfl⟩
        | arr xs =>
            rw [fp "oedeme" _ (ho.trans (nv2 _ hoe rfl))]
            exact ⟨rfl, rfl⟩
  -- the membrane entries
  have cmle : membraneOK (objLookup kvs7 "mle") = true := by
    cases hml : objLookup kvs2 "mle" with
    | none =>
        have h6m : objLookup kvs6 "mle" = none := by rw [hm]; exact n3 hml
        rw [fd _ _ memMle h6m]
        decide
    | some w =>
        obtain ⟨s, rfl⟩ := st3 w hml
        rw [fp "mle" _ (hm.trans (sv3 s hml))]
        exact membraneOK_norm s
  have cze : membraneOK (objLookup kvs7 "ze") = true := by
    cases hml : objLookup kvs3 "ze" with
    | none =>
        have h6z : objLookup kvs6 "ze" = none := by rw [hz]; exact n4 hml
        rw [fd _ _ memZe h6z]
        decide
    | some w =>
        obtain ⟨s, rfl⟩ := st4 w hml
        rw [fp "ze" _ (hz.trans (sv4 s hml))]
        exact membraneOK_norm s
  -- the points entry
  have cpts : statusEntryOK (objLookup kvs7 "points_hyperreflectifs")
      "Présents" "Absents" = true := by
    cases hpt : objLookup kvs4 "points_hyperreflectifs" with
    | none =>
        have h6p : objLookup kvs6 "points_hyperreflectifs" = none := by
          rw [hp]; exact n5 hpt
        rw [fd _ _ memPts h6p]
        decide
    | some w =>
        cases w with
        | obj d =>
            obtain ⟨s, hsst, h5p⟩ := ob5 d hpt
            rw [fp "points_hyperreflectifs" _ (hp.trans h5p)]
            exact statusEntryOK_norm d s _ _
        | null =>
            rw [fp "points_hyperreflectifs" _
              (hp.trans (nv5 _ hpt rfl))]
            rfl
        | bool b =>
            rw [fp "points_hyperreflectifs" _
              (hp.trans (nv5 _ hpt rfl))]
            rfl
        | num n =>
            rw [fp "points_hyperreflectifs" _
              (hp.trans (nv5 _ hpt rfl))]
            rfl
        | str s =>
            rw [fp "points_hyperreflectifs" _
              (hp.trans (nv5 _ hpt rfl))]
            rfl
        | arr xs =>
            rw [fp "points_hyperreflectifs" _
              (hp.trans (nv5 _ hpt rfl))]
            rfl
  -- the thickness entry
  have cep : epaisseurOK (objLookup kvs7 "epaisseur_retinienne") = true := by
    cases hep : objLookup kvs5 "epaisseur_retinienne" with
    | none =>
        rw [fd _ _ memEp (n6 hep)]
        decide
    | some w =>
        cases w with
        | str s =>
            rw [fp "epaisseur_retinienne" _ (sv6 s hep)]
            rfl
        | null =>
            rw [fp "epaisseur_retinienne" _ (ov6 _ hep rfl)]
            rfl
        | bool b =>
            rw [fp "epaisseur_retinienne" _ (ov6 _ hep rfl)]
            rfl
        | num n =>
            rw [fp "epaisseur_retinienne" _ (ov6 _ hep rfl)]
            rfl
        | obj d =>
            rw [fp "epaisseur_retinienne" _ (ov6 _ hep rfl)]
            rfl
        | arr xs =>
            rw [fp "epaisseur_retinienne" _ (ov6 _ hep rfl)]
            rfl
  -- the two clinician-supplied fields
  have cbr : hasKey kvs7 "briding" = true := by
    cases hbr : objLookup kvs0 "briding" with
    | none =>
        simp only [hasKey]
        rw [fd _ _ memBr (hb.trans hbr)]
        rfl
    | some w =>
        simp only [hasKey]
        rw [fp _ _ (hb.trans hbr)]
        rfl
  have cdc : hasKey kvs7 "decollement" = true := by
    cases hbr : objLookup kvs0 "decollement" with
    | none =>
        simp only [hasKey]
        rw [fd _ _ memDc (hdc.trans hbr)]
        rfl
    | some w =>
        simp only [hasKey]
        rw [fp _ _ (hdc.trans hbr)]
        rfl
  simp [eyeNormalized, cdril, coedeme.1, coedeme.2, cmle, cze, cpts, cep, cbr, cdc]

/-! ## Normal forms are fixed points of the per-eye normalization -/

theorem processEye_fix (e : Json) (h : eyeNormalized e = true) :
    processEye e = some e := by
  cases e with
  | null => simp [eyeNormalized] at h
  | bool b => simp [eyeNormalized] at h
  | num n => simp [eyeNormalized] at h
  | str s => simp [eyeNormalized] at h
  | arr xs => simp [eyeNormalized] at h
  | obj kvs =>
  simp only [eyeNormalized, Bool.and_eq_true] at h
  obtain ⟨⟨⟨⟨⟨⟨⟨⟨hdril, hoed⟩, hta⟩, hmle⟩, hze⟩, hpts⟩, hep⟩, hbr⟩, hdc⟩ := h
  have s1 : stdStatus (Json.obj kvs) "dril" "Présente" "Absente" =
      some (Json.obj kvs) := by
    cases hf : objLookup kvs "dril" with
    | none => rw [hf] at hdril; simp [statusEntryOK] at hdril
    | some v =>
        cases v with
        | obj d =>
            rw [hf] at hdril
            cases hst : objLookup d "status" with
            | none => simp only [statusEntryOK] at hdril; rw [hst] at hdril; simp at hdril
            | some st =>
                cases st with
                | str s =>
                    simp only [statusEntryOK] at hdril
                    rw [hst] at hdril
                    simp only [Bool.or_eq_true, beq_iff_eq] at hdril
                    have hfix : statusNorm s "Présente" "Absente" = s :=
                      statusNorm_fix s _ _
                        (by rcases hdril with rfl | rfl <;> decide) hdril
                    simp only [stdStatus_obj_eq, hf, hst, hfix,
                      objSet_lookup_eq d "status" _ hst,
                      objSet_lookup_eq kvs "dril" _ hf]
                | null => simp only [statusEntryOK] at hdril; rw [hst] at hdril; simp at hdril
                | bool b => simp only [statusEntryOK] at hdril; rw [hst] at hdril; simp at hdril
                | num n => simp only [statusEntryOK] at hdril; rw [hst] at hdril; simp at hdril
                | arr ys => simp only [statusEntryOK] at hdril; rw [hst] at hdril; simp at hdril
                | obj dd => simp only [statusEntryOK] at hdril; rw [hst] at hdril; simp at hdril
        | null => simp [stdStatus_obj_eq, hf]
        | bool b => simp [stdStatus_obj_eq, hf]
        | num n => simp [stdStatus_obj_eq, hf]
        | str s => simp [stdStatus_obj_eq, hf]
        | arr ys => simp [stdStatus_obj_eq, hf]
  have s2 : stdOedeme (Json.obj kvs) = some (Json.obj kvs) := by
    cases hf : objLookup kvs "oedeme" with
    | none => rw [hf] at hoed; simp [statusEntryOK] at hoed
    | some v =>
        cases v with
        | obj d =>
            rw [hf] at hoed hta
            cases hst : objLookup d "status" with
            | none => simp only [statusEntryOK] at hoed; rw [hst] at hoed; simp at hoed
            | some st =>
                cases st with
                | str s =>
                    simp only [statusEntryOK] at hoed
                    rw [hst] at hoed
                    simp only [Bool.or_eq_true, beq_iff_eq] at hoed
                    have hfix : statusNorm s "Présent" "Absent" = s :=
                      statusNorm_fix s _ _
                        (by rcases hoed with rfl | rfl <;> decide) hoed
                    have hds : objSet d "status" (Json.str (statusNorm s "Présent" "Absent"))
                        = d := by rw [hfix]; exact objSet_lookup_eq d "status" _ hst
                    cases ht : objLookup d "taille" with
                    | none =>
                        simp only [stdOedeme_obj_eq, hf, hst, ht, hds,
                          objSet_lookup_eq kvs "oedeme" _ hf]
                    | some tv =>
                        cases tv with
                        | str t =>
                            simp only [tailleOK] at hta
                            rw [ht] at hta
                            simp only [Bool.and_eq_true, beq_iff_eq] at hta
                            obtain ⟨htl, htg⟩ := hta
                            have htfix : tailleGet (pyLower t) = t := by rw [htl, htg]
                            simp only [stdOedeme_obj_eq, hf, hst, ht, hds, htfix,
                              objSet_lookup_eq d "taille" _ ht,
                              objSet_lookup_eq kvs "oedeme" _ hf]
                        | null => simp only [tailleOK] at hta; rw [ht] at hta; simp at hta
                        | bool b => simp only [tailleOK] at hta; rw [ht] at hta; simp at hta
                        | num n => simp only [tailleOK] at hta; rw [ht] at hta; simp at hta
                        | arr ys => simp only [tailleOK] at hta; rw [ht] at hta; simp at hta
                        | obj dd => simp only [tailleOK] at hta; rw [ht] at hta; simp at hta
                | null => simp only [statusEntryOK] at hoed; rw [hst] at hoed; simp at hoed
                | bool b => simp only [statusEntryOK] at hoed; rw [hst] at hoed; simp at hoed
                | num n => simp only [statusEntryOK] at hoed; rw [hst] at hoed; simp at hoed
                | arr ys => simp only [statusEntryOK] at hoed; rw [hst] at hoed; simp at hoed
                | obj dd => simp only [statusEntryOK] at hoed; rw [hst] at hoed; simp at hoed
        | null => simp [stdOedeme_obj_eq, hf]
        | bool b => simp [stdOedeme_obj_eq, hf]
        | num n => simp [stdOedeme_obj_eq, hf]
        | str s => simp [stdOedeme_obj_eq, hf]
        | arr ys => simp [stdOedeme_obj_eq, hf]
  have s3 : stdMembrane (Json.obj kvs) "mle" = some (Json.obj kvs) := by
    cases hf : objLookup kvs "mle" with
    | none => rw [hf] at hmle; simp [membraneOK] at hmle
    | some v =>
        cases v with
        | str s =>
            rw [hf] at hmle
            simp only [stdMembrane_obj_eq, hf, membraneNorm_fix s hmle,
              objSet_lookup_eq kvs "mle" _ hf]
        | null => rw [hf] at hmle; simp [membraneOK] at hmle
        | bool b => rw [hf] at hmle; simp [membraneOK] at hmle
        | num n => rw [hf] at hmle; simp [membraneOK] at hmle
        | arr ys => rw [hf] at hmle; simp [membraneOK] at hmle
        | obj dd => rw [hf] at hmle; simp [membraneOK] at hmle
  have s4 : stdMembrane (Json.obj kvs) "ze" = some (Json.obj kvs) := by
    cases hf : objLookup kvs "ze" with
    | none => rw [hf] at hze; simp [membraneOK] at hze
    | some v =>
        cases v with
        | str s =>
            rw [hf] at hze
            simp only [stdMembrane_obj_eq, hf, membraneNorm_fix s hze,
              objSet_lookup_eq kvs "ze" _ hf]
        | null => rw [hf] at hze; simp [membraneOK] at hze
        | bool b => rw [hf] at hze; simp [membraneOK] at hze
        | num n => rw [hf] at hze; simp [membraneOK] at hze
        | arr ys => rw [hf] at hze; simp [membraneOK] at hze
        | obj dd => rw [hf] at hze; simp [membraneOK] at hze
  have s5 : stdStatus (Json.obj kvs) "points_hyperreflectifs" "Présents" "Absents" =
      some (Json.obj kvs) := by
    cases hf : objLookup kvs "points_hyperreflectifs" with
    | none => rw [hf] at hpts; simp [statusEntryOK] at hpts
    | some v =>
        cases v with
        | obj d =>
            rw [hf] at hpts
            cases hst : objLookup d "status" with
            | none => simp only [statusEntryOK] at hpts; rw [hst] at hpts; simp at hpts
            | some st =>
                cases st with
                | str s =>
                    simp only [statusEntryOK] at hpts
                    rw [hst] at hpts
                    simp only [Bool.or_eq_true, beq_iff_eq] at hpts
                    have hfix : statusNorm s "Présents" "Absents" = s :=
                      statusNorm_fix s _ _
                        (by rcases hpts with rfl | rfl <;> decide) hpts
                    simp only [stdStatus_obj_eq, hf, hst, hfix,
                      objSet_lookup_eq d "status" _ hst,
                      objSet_lookup_eq kvs "points_hyperreflectifs" _ hf]
                | null => simp only [statusEntryOK] at hpts; rw [hst] at hpts; simp at hpts
                | bool b => simp only [statusEntryOK] at hpts; rw [hst] at hpts; simp at hpts
                | num n => simp only [statusEntryOK] at hpts; rw [hst] at hpts; simp at hpts
                | arr ys => simp only [statusEntryOK] at hpts; rw [hst] at hpts; simp at hpts
                | obj dd => simp only [statusEntryOK] at hpts; rw [hst] at hpts; simp at hpts
        | null => simp [stdStatus_obj_eq, hf]
        | bool b => simp [stdStatus_obj_eq, hf]
        | num n => simp [stdStatus_obj_eq, hf]
        | str s => simp [stdStatus_obj_eq, hf]
        | arr ys => simp [stdStatus_obj_eq, hf]
  have s6 : stdEpaisseur (Json.obj kvs) = some (Json.obj kvs) := by
    cases hf : objLookup kvs "epaisseur_retinienne" with
    | none => rw [hf] at hep; simp [epaisseurOK] at hep
    | some v =>
        cases v with
        | str s => rw [hf] at hep; simp [epaisseurOK] at hep
        | null => simp [stdEpaisseur_obj_eq, hf]
        | bool b => simp [stdEpaisseur_obj_eq, hf]
        | num n => simp [stdEpaisseur_obj_eq, hf]
        | arr ys => simp [stdEpaisseur_obj_eq, hf]
        | obj dd => simp [stdEpaisseur_obj_eq, hf]
  have s7 : fillDefaults (Json.obj kvs) defaultEyeFields = some (Json.obj kvs) := by
    refine fillDefaults_allPresent kvs defaultEyeFields ?_
    intro p hp
    simp only [defaultEyeFields, List.mem_cons, List.not_mem_nil, or_false] at hp
    rcases hp with rfl | rfl | rfl | rfl | rfl | rfl | rfl | rfl
    · cases hq : objLookup kvs "dril" with
      | none => rw [hq] at hdril; simp [statusEntryOK] at hdril
      | some v => simp [hasKey, hq]
    · cases hq : objLookup kvs "oedeme" with
      | none => rw [hq] at hoed; simp [statusEntryOK] at hoed
      | some v => simp [hasKey, hq]
    · cases hq : objLookup kvs "mle" with
      | none => rw [hq] at hmle; simp [membraneOK] at hmle
      | some v => simp [hasKey, hq]
    · cases hq : objLookup kvs "ze" with
      | none => rw [hq] at hze; simp [membraneOK] at hze
      | some v => simp [hasKey, hq]
    · cases hq : objLookup kvs "points_hyperreflectifs" with
      | none => rw [hq] at hpts; simp [statusEntryOK] at hpts
      | some v => simp [hasKey, hq]
    · cases hq : objLookup kvs "epaisseur_retinienne" with
      | none => rw [hq] at hep; simp [epaisseurOK] at hep
      | some v => simp [hasKey, hq]
    · exact hbr
    · exact hdc
  unfold processEye
  rw [s1]
  simp only [Option.bind_eq_bind, Option.some_bind]
  rw [s2]
  simp only [Option.some_bind]
  rw [s3]
  simp only [Option.some_bind]
  rw [s4]
  simp only [Option.some_bind]
  rw [s5]
  simp only [Option.some_bind]
  rw [s6]
  simp only [Option.some_bind]
  exact s7

/-! ## Top-level lemmas about `process_gpt_response` -/

theorem eyeNormalized_defaultEye : eyeNormalized defaultEye = true := by decide

theorem processEyeKey_obj_absent (kvs : List (String × Json)) (eye : String)
    (h : hasKey kvs eye = false) :
    processEyeKey (Json.obj kvs) eye = some (Json.obj (objSet kvs eye defaultEye)) := by
  simp [processEyeKey, pyContains, h, setItem, Option.bind_eq_bind, Option.some_bind]

theorem processEyeKey_obj_present (kvs : List (String × Json)) (eye : String)
    (v e1 : Json) (hv : objLookup kvs eye = some v) (hpe : processEye v = some e1) :
    processEyeKey (Json.obj kvs) eye = some (Json.obj (objSet kvs eye e1)) := by
  simp [processEyeKey, pyContains, hasKey, hv, getItem, hpe, setItem,
    Option.bind_eq_bind, Option.some_bind]

theorem processEyeKey_nonobj (e : Json) (eye : String) (h : Json.isObj e = false) :
    processEyeKey e eye = none := by
  cases e with
  | null => rfl
  | bool b => rfl
  | num n => rfl
  | obj kvs => simp [Json.isObj] at h
  | str s =>
      unfold processEyeKey
      by_cases hc : strContains s eye <;>
        simp [pyContains, hc, getItem, setItem,
          Option.bind_eq_bind, Option.some_bind, Option.none_bind]
  | arr xs =>
      unfold processEyeKey
      by_cases hc : arrHas xs eye <;>
        simp [pyContains, hc, getItem, setItem,
          Option.bind_eq_bind, Option.some_bind, Option.none_bind]

theorem processEyeKey_inv (kvs : List (String × Json)) (eye : String) (out : Json)
    (h : processEyeKey (Json.obj kvs) eye = some out) :
    ∃ X, out = Json.obj (objSet kvs eye X) ∧ eyeNormalized X = true ∧
      ((objLookup kvs eye = none ∧ X = defaultEye) ∨
        (∃ v, objLookup kvs eye = some v ∧ processEye v = some X)) := by
  cases hv : objLookup kvs eye with
  | none =>
      rw [processEyeKey_obj_absent kvs eye (by simp [hasKey, hv])] at h
      injection h with h
      exact ⟨defaultEye, h.symm, eyeNormalized_defaultEye, Or.inl ⟨rfl, rfl⟩⟩
  | some v =>
      cases hpe : processEye v with
      | none =>
          exfalso
          unfold processEyeKey at h
          simp [pyContains, hasKey, hv, getItem, hpe,
            Option.bind_eq_bind, Option.some_bind, Option.none_bind] at h
      | some e1 =>
          rw [processEyeKey_obj_present kvs eye v e1 hv hpe] at h
          injection h with h
          exact ⟨e1, h.symm, processEye_normalized v e1 hpe,
            Or.inr ⟨v, rfl, hpe⟩⟩

/-- The error-marker short-circuit: any dict input with an `"error"` key
yields the freshly-built Default Schema. -/
theorem process_error (kvs : List (String × Json)) (h : hasKey kvs "error" = true) :
    process_gpt_response (Json.obj kvs) = some default_structure := by
  simp [process_gpt_response, pyContains, h, Option.bind_eq_bind, Option.some_bind]

/-- Complete description of a successful run on an error-free dict input:
both eye keys are overwritten (or added) with normalized eye records; an
absent eye key receives the default record, a present one the result of the
per-eye normalization. -/
theorem process_obj_inv (kvs : List (String × Json)) (out : Json)
    (herr : hasKey kvs "error" = false)
    (h : process_gpt_response (Json.obj kvs) = some out) :
    ∃ L R, out = Json.obj (objSet (objSet kvs "left_eye" L) "right_eye" R) ∧
      eyeNormalized L = true ∧ eyeNormalized R = true ∧
      ((objLookup kvs "left_eye" = none ∧ L = defaultEye) ∨
        (∃ v, objLookup kvs "left_eye" = some v ∧ processEye v = some L)) ∧
      ((objLookup kvs "right_eye" = none ∧ R = defaultEye) ∨
        (∃ v, objLookup kvs "right_eye" = some v ∧ processEye v = some R)) := by
  unfold process_gpt_response at h
  simp only [pyContains, herr, Option.bind_eq_bind, Option.some_bind,
    Bool.false_eq_true, if_false, Option.bind_eq_some] at h
  obtain ⟨r1, hk1, hk2⟩ := h
  obtain ⟨L, rfl, hLn, hLsrc⟩ := processEyeKey_inv kvs "left_eye" r1 hk1
  obtain ⟨R, rfl, hRn, hRsrc⟩ := processEyeKey_inv _ "right_eye" _ hk2
  refine ⟨L, R, rfl, hLn, hRn, hLsrc, ?_⟩
  rw [objLookup_objSet_ne kvs "left_eye" "right_eye" L (by decide)] at hRsrc
  exact hRsrc

/-- A successful run on a non-dict input is only possible through the
error-marker short-circuit. -/
theorem process_nonobj (r : Json) (out : Json) (h : Json.isObj r = false)
    (herr : pyContains r "error" = some false)
    (hp : process_gpt_response r = some out) : False := by
  unfold process_gpt_response at hp
  rw [herr] at hp
  simp only [Option.bind_eq_bind, Option.some_bind, Bool.false_eq_true, if_false,
    Option.bind_eq_some] at hp
  obtain ⟨r1, hk1, hk2⟩ := hp
  rw [processEyeKey_nonobj r "left_eye" h] at hk1
  cases hk1

/-- The `status` of the `f` entry of the `eye` record of a response (each
step a Python indexing operation). -/
def statusAt (j : Json) (eye f : String) : Option Json :=
  (getItem j eye).bind (fun e => (getItem e f).bind (fun sub => getItem sub "status"))

/-- The `f` entry of the `eye` record of a response. -/
def fieldAt (j : Json) (eye f : String) : Option Json :=
  (getItem j eye).bind (fun e => getItem e f)

/-- The `oedeme.taille` entry of the `eye` record of a response. -/
def tailleAt (j : Json) (eye : String) : Option Json :=
  (getItem j eye).bind (fun e => (getItem e "oedeme").bind (fun sub => getItem sub "taille"))

/-- Field-by-field description of a successful per-eye normalization in
terms of the raw eye record. -/
theorem processEye_result (ekvs : List (String × Json)) (L : Json)
    (hL : processEye (Json.obj ekvs) = some L) :
    ∃ Lk, L = Json.obj Lk ∧
      (∀ d s, objLookup ekvs "dril" = some (Json.obj d) →
        objLookup d "status" = some (Json.str s) →
        objLookup Lk "dril" = some (Json.obj (objSet d "status"
          (Json.str (statusNorm s "Présente" "Absente"))))) ∧
      (∀ d, objLookup ekvs "oedeme" = some (Json.obj d) →
        ∃ s0, objLookup d "status" = some (Json.str s0)) ∧
      (∀ d s, objLookup ekvs "oedeme" = some (Json.obj d) →
        objLookup d "status" = some (Json.str s) →
        ∃ dd, objLookup Lk "oedeme" = some (Json.obj dd) ∧
          objLookup dd "status" = some (Json.str (statusNorm s "Présent" "Absent"))) ∧
      (∀ d s, objLookup ekvs "oedeme" = some (Json.obj d) →
        objLookup d "status" = some (Json.str s) →
        (∀ t, objLookup d "taille" = some (Json.str t) →
          objLookup Lk "oedeme" = some (Json.obj (objSet (objSet d "status"
            (Json.str (statusNorm s "Présent" "Absent"))) "taille"
            (Json.str (tailleGet (pyLower t))))))) ∧
      (∀ s, objLookup ekvs "mle" = some (Json.str s) →
        objLookup Lk "mle" = some (Json.str (membraneNorm s))) ∧
      (∀ s, objLookup ekvs "ze" = some (Json.str s) →
        objLookup Lk "ze" = some (Json.str (membraneNorm s))) ∧
      (∀ d s, objLookup ekvs "points_hyperreflectifs" = some (Json.obj d) →
        objLookup d "status" = some (Json.str s) →
        objLookup Lk "points_hyperreflectifs" = some (Json.obj (objSet d "status"
          (Json.str (statusNorm s "Présents" "Absents"))))) ∧
      (∀ s, objLookup ekvs "epaisseur_retinienne" = some (Json.str s) →
        objLookup Lk "epaisseur_retinienne" = some (epaisseurObj s)) := by
  obtain ⟨e1, e2, e3, e4, e5, e6, h1, h2, h3, h4, h5, h6, h7⟩ :=
    processEye_steps _ _ hL
  obtain ⟨kvs1, rfl, fr1, n1, nv1, ob1⟩ := stdStatus_inv ekvs _ _ _ _ h1
  obtain ⟨kvs2, rfl, fr2, n2, nv2, ob2⟩ := stdOedeme_inv kvs1 _ h2
  obtain ⟨kvs3, rfl, fr3, n3, st3, sv3⟩ := stdMembrane_inv kvs2 "mle" _ h3
  obtain ⟨kvs4, rfl, fr4, n4, st4, sv4⟩ := stdMembrane_inv kvs3 "ze" _ h4
  obtain ⟨kvs5, rfl, fr5, n5, nv5, ob5⟩ := stdStatus_inv kvs4 _ _ _ _ h5
  obtain ⟨kvs6, rfl, fr6, n6, sv6, ov6⟩ := stdEpaisseur_inv kvs5 _ h6
  obtain ⟨kvs7, hfill, fp, fd⟩ := fillDefaults_obj_spec defaultEyeFields (by decide) kvs6
  rw [hfill] at h7
  injection h7 with h7
  subst h7
  have hd : objLookup kvs6 "dril" = objLookup kvs1 "dril" := by
    rw [fr6 _ (by decide), fr5 _ (by decide), fr4 _ (by decide), fr3 _ (by decide),
      fr2 _ (by decide)]
  have ho : objLookup kvs6 "oedeme" = objLookup kvs2 "oedeme" := by
    rw [fr6 _ (by decide), fr5 _ (by decide), fr4 _ (by decide), fr3 _ (by decide)]
  have hm2 : objLookup kvs2 "mle" = objLookup ekvs "mle" := by
    rw [fr2 _ (by decide), fr1 _ (by decide)]
  have hm6 : objLookup kvs6 "mle" = objLookup kvs3 "mle" := by
    rw [fr6 _ (by decide), fr5 _ (by decide), fr4 _ (by decide)]
  have hz3 : objLookup kvs3 "ze" = objLookup ekvs "ze" := by
    rw [fr3 _ (by decide), fr2 _ (by decide), fr1 _ (by decide)]
  have hz6 : objLookup kvs6 "ze" = objLookup kvs4 "ze" := by
    rw [fr6 _ (by decide), fr5 _ (by decide)]
  have hp4 : objLookup kvs4 "points_hyperreflectifs" =
      objLookup ekvs "points_hyperreflectifs" := by
    rw [fr4 _ (by decide), fr3 _ (by decide), fr2 _ (by decide), fr1 _ (by decide)]
  have hp6 : objLookup kvs6 "points_hyperreflectifs" =
      objLookup kvs5 "points_hyperreflectifs" := by
    rw [fr6 _ (by decide)]
  have he5 : objLookup kvs5 "epaisseur_retinienne" =
      objLookup ekvs "epaisseur_retinienne" := by
    rw [fr5 _ (by decide), fr4 _ (by decide), fr3 _ (by decide), fr2 _ (by decide),
      fr1 _ (by decide)]
  refine ⟨kvs7, rfl, ?_, ?_, ?_, ?_, ?_, ?_, ?_, ?_⟩
  · intro d s hdr hst
    obtain ⟨s2, hs2, h1d⟩ := ob1 d hdr
    rw [hst] at hs2
    injection hs2 with hs2
    injection hs2 with hs2
    subst hs2
    exact fp _ _ (hd.trans h1d)
  · intro d hoe
    obtain ⟨s0, hs0, _⟩ := ob2 d (by rw [fr1 _ (by decide)]; exact hoe)
    exact ⟨s0, hs0⟩
  · intro d s hoe hst
    obtain ⟨s2, hs2, hrest⟩ := ob2 d (by rw [fr1 _ (by decide)]; exact hoe)
    rw [hst] at hs2
    injection hs2 with hs2
    injection hs2 with hs2
    subst hs2
    rcases hrest with ⟨ht2, h2o⟩ | ⟨t2, ht2, h2o⟩
    · exact ⟨_, fp _ _ (ho.trans h2o), objLookup_objSet_self d "status" _⟩
    · refine ⟨_, fp _ _ (ho.trans h2o), ?_⟩
      rw [objLookup_objSet_ne _ "taille" "status" _ (by decide)]
      exact objLookup_objSet_self d "status" _
  · intro d s hoe hst t ht
    obtain ⟨s2, hs2, hrest⟩ := ob2 d (by rw [fr1 _ (by decide)]; exact hoe)
    rw [hst] at hs2
    injection hs2 with hs2
    injection hs2 with hs2
    subst hs2
    rcases hrest with ⟨ht2, _⟩ | ⟨t2, ht2, h2o⟩
    · rw [ht] at ht2
      cases ht2
    · rw [ht] at ht2
      injection ht2 with ht2
      injection ht2 with ht2
      subst ht2
      exact fp _ _ (ho.trans h2o)
  · intro s hml
    exact fp _ _ (hm6.trans (sv3 s (hm2.trans hml)))
  · intro s hzl
    exact fp _ _ (hz6.trans (sv4 s (hz3.trans hzl)))
  · intro d s hpt hst
    obtain ⟨s2, hs2, h5p⟩ := ob5 d (hp4.trans hpt)
    rw [hst] at hs2
    injection hs2 with hs2
    injection hs2 with hs2
    subst hs2
    exact fp _ _ (hp6.trans h5p)
  · intro s hep
    exact fp _ _ (sv6 s (he5.trans hep))

/-! ## Success conditions: the exact shapes on which the normalizer does not raise -/

/-- A `dril`/`points_hyperreflectifs` entry the source can process without
raising: absent, non-dict, or a dict with a string `status`. -/
def wellShapedEntry (e : List (String × Json)) (f : String) : Bool :=
  match objLookup e f with
  | some (Json.obj d) =>
      (match objLookup d "status" with
       | some (Json.str _) => true
       | _ => false)
  | _ => true

/-- An `oedeme` entry the source can process without raising: like
`wellShapedEntry`, with `taille`, when present, a string. -/
def wellShapedOedeme (e : List (String × Json)) : Bool :=
  match objLookup e "oedeme" with
  | some (Json.obj d) =>
      (match objLookup d "status" with
       | some (Json.str _) =>
          (match objLookup d "taille" with
           | none => true
           | some (Json.str _) => true
           | some _ => false)
       | _ => false)
  | _ => true

/-- A membrane entry the source can process without raising: absent or a
string. -/
def wellShapedMembrane (e : List (String × Json)) (f : String) : Bool :=
  match objLookup e f with
  | none => true
  | some (Json.str _) => true
  | some _ => false

/-- An eye record the source can process without raising. -/
def wellShapedEye (v : Json) : Bool :=
  match v with
  | Json.obj e =>
      wellShapedEntry e "dril" && wellShapedOedeme e &&
      wellShapedMembrane e "mle" && wellShapedMembrane e "ze" &&
      wellShapedEntry e "points_hyperreflectifs"
  | _ => false

/-- A response the source can process without raising: either it carries the
error marker (immediate default return), or it is a dict whose eye entries,
when present, are well-shaped eye records. -/
def wellShapedResponse (r : Json) : Bool :=
  match r with
  | Json.obj kvs =>
      hasKey kvs "error" ||
      ((match objLookup kvs "left_eye" with
        | none => true
        | some v => wellShapedEye v) &&
       (match objLookup kvs "right_eye" with
        | none => true
        | some v => wellShapedEye v))
  | _ => false

theorem stdStatus_ok (kvs : List (String × Json)) (f p a : String)
    (hw : wellShapedEntry kvs f = true) :
    ∃ kvs', stdStatus (Json.obj kvs) f p a = some (Json.obj kvs') ∧
      (∀ k, k ≠ f → objLookup kvs' k = objLookup kvs k) := by
  unfold wellShapedEntry at hw
  cases hf : objLookup kvs f with
  | none => exact ⟨kvs, by simp [stdStatus_obj_eq, hf], fun _ _ => rfl⟩
  | some v =>
      rw [hf] at hw
      cases v with
      | obj d =>
          simp at hw
          cases hst : objLookup d "status" with
          | none => rw [hst] at hw; simp at hw
          | some st =>
              rw [hst] at hw
              cases st with
              | str s =>
                  refine ⟨objSet kvs f (Json.obj (objSet d "status"
                    (Json.str (statusNorm s p a)))), ?_,
                    fun k hk => objLookup_objSet_ne kvs f k _ hk⟩
                  simp [stdStatus_obj_eq, hf, hst]
              | null => simp at hw
              | bool b => simp at hw
              | num n => simp at hw
              | arr xs => simp at hw
              | obj dd => simp at hw
      | null => exact ⟨kvs, by simp [stdStatus_obj_eq, hf], fun _ _ => rfl⟩
      | bool b => exact ⟨kvs, by simp [stdStatus_obj_eq, hf], fun _ _ => rfl⟩
      | num n => exact ⟨kvs, by simp [stdStatus_obj_eq, hf], fun _ _ => rfl⟩
      | str s => exact ⟨kvs, by simp [stdStatus_obj_eq, hf], fun _ _ => rfl⟩
      | arr xs => exact ⟨kvs, by simp [stdStatus_obj_eq, hf], fun _ _ => rfl⟩

theorem stdOedeme_ok (kvs : List (String × Json))
    (hw : wellShapedOedeme kvs = true) :
    ∃ kvs', stdOedeme (Json.obj kvs) = some (Json.obj kvs') ∧
      (∀ k, k ≠ "oedeme" → objLookup kvs' k = objLookup kvs k) := by
  unfold wellShapedOedeme at hw
  cases hf : objLookup kvs "oedeme" with
  | none => exact ⟨kvs, by simp [stdOedeme_obj_eq, hf], fun _ _ => rfl⟩
  | some v =>
      rw [hf] at hw
      cases v with
      | obj d =>
          simp at hw
          cases hst : objLookup d "status" with
          | none => rw [hst] at hw; simp at hw
          | some st =>
              rw [hst] at hw
              cases st with
              | str s =>
                  simp at hw
                  cases ht : objLookup d "taille" with
                  | none =>
                      refine ⟨objSet kvs "oedeme" (Json.obj (objSet d "status"
                        (Json.str (statusNorm s "Présent" "Absent")))), ?_,
                        fun k hk => objLookup_objSet_ne kvs "oedeme" k _ hk⟩
                      simp [stdOedeme_obj_eq, hf, hst, ht]
                  | some tv =>
                      rw [ht] at hw
                      cases tv with
                      | str t =>
                          refine ⟨objSet kvs "oedeme" (Json.obj (objSet
                            (objSet d "status" (Json.str (statusNorm s "Présent" "Absent")))
                            "taille" (Json.str (tailleGet (pyLower t))))), ?_,
                            fun k hk => objLookup_objSet_ne kvs "oedeme" k _ hk⟩
                          simp [stdOedeme_obj_eq, hf, hst, ht]
                      | null => simp at hw
                      | bool b => simp at hw
                      | num n => simp at hw
                      | arr xs => simp at hw
                      | obj dd => simp at hw
              | null => simp at hw
              | bool b => simp at hw
              | num n => simp at hw
              | arr xs => simp at hw
              | obj dd => simp at hw
      | null => exact ⟨kvs, by simp [stdOedeme_obj_eq, hf], fun _ _ => rfl⟩
      | bool b => exact ⟨kvs, by simp [stdOedeme_obj_eq, hf], fun _ _ => rfl⟩
      | num n => exact ⟨kvs, by simp [stdOedeme_obj_eq, hf], fun _ _ => rfl⟩
      | str s => exact ⟨kvs, by simp [stdOedeme_obj_eq, hf], fun _ _ => rfl⟩
      | arr xs => exact ⟨kvs, by simp [stdOedeme_obj_eq, hf], fun _ _ => rfl⟩

theorem stdMembrane_ok (kvs : List (String × Json)) (f : String)
    (hw : wellShapedMembrane kvs f = true) :
    ∃ kvs', stdMembrane (Json.obj kvs) f = some (Json.obj kvs') ∧
      (∀ k, k ≠ f → objLookup kvs' k = objLookup kvs k) := by
  unfold wellShapedMembrane at hw
  cases hf : objLookup kvs f with
  | none => exact ⟨kvs, by simp [stdMembrane_obj_eq, hf], fun _ _ => rfl⟩
  | some v =>
      rw [hf] at hw
      cases v with
      | str s =>
          refine ⟨objSet kvs f (Json.str (membraneNorm s)), ?_,
            fun k hk => objLookup_objSet_ne kvs f k _ hk⟩
          simp [stdMembrane_obj_eq, hf]
      | null => simp at hw
      | bool b => simp at hw
      | num n => simp at hw
      | arr xs => simp at hw
      | obj dd => simp at hw

theorem stdEpaisseur_ok (kvs : List (String × Json)) :
    ∃ kvs', stdEpaisseur (Json.obj kvs) = some (Json.obj kvs') := by
  cases hf : objLookup kvs "epaisseur_retinienne" with
  | none => exact ⟨kvs, by simp [stdEpaisseur_obj_eq, hf]⟩
  | some v =>
      cases v with
      | str s =>
          exact ⟨objSet kvs "epaisseur_retinienne" (epaisseurObj s),
            by simp [stdEpaisseur_obj_eq, hf]⟩
      | null => exact ⟨kvs, by simp [stdEpaisseur_obj_eq, hf]⟩
      | bool b => exact ⟨kvs, by simp [stdEpaisseur_obj_eq, hf]⟩
      | num n => exact ⟨kvs, by simp [stdEpaisseur_obj_eq, hf]⟩
      | arr xs => exact ⟨kvs, by simp [stdEpaisseur_obj_eq, hf]⟩
      | obj dd => exact ⟨kvs, by simp [stdEpaisseur_obj_eq, hf]⟩

/-- A well-shaped eye record is processed without raising. -/
theorem processEye_ok (v : Json) (hw : wellShapedEye v = true) :
    ∃ X, processEye v = some X := by
  cases v with
  | null => simp [wellShapedEye] at hw
  | bool b => simp [wellShapedEye] at hw
  | num n => simp [wellShapedEye] at hw
  | str s => simp [wellShapedEye] at hw
  | arr xs => simp [wellShapedEye] at hw
  | obj e =>
      simp only [wellShapedEye, Bool.and_eq_true] at hw
      obtain ⟨⟨⟨⟨hw1, hw2⟩, hw3⟩, hw4⟩, hw5⟩ := hw
      obtain ⟨kvs1, hs1, fr1⟩ := stdStatus_ok e "dril" "Présente" "Absente" hw1
      have hw2' : wellShapedOedeme kvs1 = true := by
        unfold wellShapedOedeme at hw2 ⊢
        rw [fr1 _ (by decide)]
        exact hw2
      obtain ⟨kvs2, hs2, fr2⟩ := stdOedeme_ok kvs1 hw2'
      have hw3' : wellShapedMembrane kvs2 "mle" = true := by
        unfold wellShapedMembrane at hw3 ⊢
        rw [fr2 _ (by decide), fr1 _ (by decide)]
        exact hw3
      obtain ⟨kvs3, hs3, fr3⟩ := stdMembrane_ok kvs2 "mle" hw3'
      have hw4' : wellShapedMembrane kvs3 "ze" = true := by
        unfold wellShapedMembrane at hw4 ⊢
        rw [fr3 _ (by decide), fr2 _ (by decide), fr1 _ (by decide)]
        exact hw4
      obtain ⟨kvs4, hs4, fr4⟩ := stdMembrane_ok kvs3 "ze" hw4'
      have hw5' : wellShapedEntry kvs4 "points_hyperreflectifs" = true := by
        unfold wellShapedEntry at hw5 ⊢
        rw [fr4 _ (by decide), fr3 _ (by decide), fr2 _ (by decide), fr1 _ (by decide)]
        exact hw5
      obtain ⟨kvs5, hs5, fr5⟩ := stdStatus_ok kvs4 "points_hyperreflectifs"
        "Présents" "Absents" hw5'
      obtain ⟨kvs6, hs6⟩ := stdEpaisseur_ok kvs5
      obtain ⟨kvs7, hfill, fp, fd⟩ := fillDefaults_obj_spec defaultEyeFields (by decide) kvs6
      refine ⟨Json.obj kvs7, ?_⟩
      unfold processEye
      rw [hs1]
      simp only [Option.bind_eq_bind, Option.some_bind]
      rw [hs2]
      simp only [Option.some_bind]
      rw [hs3]
      simp only [Option.some_bind]
      rw [hs4]
      simp only [Option.some_bind]
      rw [hs5]
      simp only [Option.some_bind]
      rw [hs6]
      simp only [Option.some_bind]
      exact hfill

/-- Any input in which the `in` test finds the error marker (dicts with an
`"error"` key, but also strings/lists containing it) returns the Default
Schema. -/
theorem process_error_any (r : Json) (h : pyContains r "error" = some true) :
    process_gpt_response r = some default_structure := by
  unfold process_gpt_response
  rw [h]
  simp [Option.bind_eq_bind, Option.some_bind]

/-- Inputs on which the `in` test itself raises (numbers, booleans, null)
make the whole call raise. -/
theorem process_contains_raise (r : Json) (h : pyContains r "error" = none) :
    process_gpt_response r = none := by
  unfold process_gpt_response
  rw [h]
  rfl

/-- The record a successful error-free run stores under an eye key that was
present in the input is exactly the per-eye normalization of the raw
record. -/
theorem process_eye_record (kvs : List (String × Json)) (out : Json) (eye : String)
    (ekvs : List (String × Json))
    (heye : eye = "left_eye" ∨ eye = "right_eye")
    (herr : hasKey kvs "error" = false)
    (hev : objLookup kvs eye = some (Json.obj ekvs))
    (hp : process_gpt_response (Json.obj kvs) = some out) :
    ∃ L, processEye (Json.obj ekvs) = some L ∧ getItem out eye = some L := by
  obtain ⟨L, R, rfl, hLn, hRn, hLsrc, hRsrc⟩ := process_obj_inv kvs out herr hp
  rcases heye with rfl | rfl
  · rcases hLsrc with ⟨hn, _⟩ | ⟨v, hv, hpe⟩
    · rw [hev] at hn
      cases hn
    · rw [hev] at hv
      injection hv with hv
      subst hv
      refine ⟨L, hpe, ?_⟩
      simp [getItem, objLookup_objSet_ne (objSet kvs "left_eye" L) "right_eye"
        "left_eye" R (by decide), objLookup_objSet_self]
  · rcases hRsrc with ⟨hn, _⟩ | ⟨v, hv, hpe⟩
    · rw [hev] at hn
      cases hn
    · rw [hev] at hv
      injection hv with hv
      subst hv
      refine ⟨R, hpe, ?_⟩
      simp [getItem, objLookup_objSet_self]

/-- Top-level completeness of an eye record: all eight Default-Schema keys
are present. -/
def eyeComplete (v : Json) : Bool :=
  match v with
  | Json.obj kvs =>
      hasKey kvs "dril" && hasKey kvs "oedeme" && hasKey kvs "mle" &&
      hasKey kvs "ze" && hasKey kvs "points_hyperreflectifs" &&
      hasKey kvs "epaisseur_retinienne" && hasKey kvs "briding" &&
      hasKey kvs "decollement"
  | _ => false

theorem eyeComplete_of_normalized (v : Json) (h : eyeNormalized v = true) :
    eyeComplete v = true := by
  cases v with
  | null => simp [eyeNormalized] at h
  | bool b => simp [eyeNormalized] at h
  | num n => simp [eyeNormalized] at h
  | str s => simp [eyeNormalized] at h
  | arr xs => simp [eyeNormalized] at h
  | obj kvs =>
      simp only [eyeNormalized, Bool.and_eq_true] at h
      obtain ⟨⟨⟨⟨⟨⟨⟨⟨h1, h2⟩, h3⟩, h4⟩, h5⟩, h6⟩, h7⟩, h8⟩, h9⟩ := h
      have k1 : hasKey kvs "dril" = true := by
        cases hq : objLookup kvs "dril" with
        | none => rw [hq] at h1; simp [statusEntryOK] at h1
        | some v => simp [hasKey, hq]
      have k2 : hasKey kvs "oedeme" = true := by
        cases hq : objLookup kvs "oedeme" with
        | none => rw [hq] at h2; simp [statusEntryOK] at h2
        | some v => simp [hasKey, hq]
      have k3 : hasKey kvs "mle" = true := by
        cases hq : objLookup kvs "mle" with
        | none => rw [hq] at h4; simp [membraneOK] at h4
        | some v => simp [hasKey, hq]
      have k4 : hasKey kvs "ze" = true := by
        cases hq : objLookup kvs "ze" with
        | none => rw [hq] at h5; simp [membraneOK] at h5
        | some v => simp [hasKey, hq]
      have k5 : hasKey kvs "points_hyperreflectifs" = true := by
        cases hq : objLookup kvs "points_hyperreflectifs" with
        | none => rw [hq] at h6; simp [statusEntryOK] at h6
        | some v => simp [hasKey, hq]
      have k6 : hasKey kvs "epaisseur_retinienne" = true := by
        cases hq : objLookup kvs "epaisseur_retinienne" with
        | none => rw [hq] at h7; simp [epaisseurOK] at h7
        | some v => simp [hasKey, hq]
      simp [eyeComplete, k1, k2, k3, k4, k5, k6, h8, h9]

/-! ## Concrete test vectors used by the witnesses and counterexamples -/

/-- The default `dril` sub-record. -/
def drilDefault : Json := Json.obj [("status", Json.str "Absente"), ("extent", Json.str "")]

/-- The default `oedeme` sub-record. -/
def oedemeDefault : Json := Json.obj
  [ ("status", Json.str "Absent"), ("nb_logette", Json.str ""),
    ("taille", Json.str ""), ("localisation", Json.str "") ]

/-- The default `points_hyperreflectifs` sub-record. -/
def pointsDefault : Json := Json.obj
  [ ("status", Json.str "Absents"), ("nombre", Json.str ""),
    ("localisation", Json.str "") ]

/-- The default `epaisseur_retinienne` sub-record. -/
def epaisseurDefault : Json := Json.obj
  [ ("central", Json.str ""), ("superieur", Json.str ""),
    ("inferieur", Json.str ""), ("nasal", Json.str ""),
    ("temporal", Json.str "") ]

/-! ## The claims -/

/-- C1 (counterexample): the function raises — an eye whose `dril` is a
dict without a `status` key raises `KeyError` at src/app.py line 269, so a
decoded-JSON input exists on which `process_gpt_response` does not return
normally. -/
theorem C1_counterexample :
    process_gpt_response
      (Json.obj [("left_eye", Json.obj [("dril", Json.obj [])])]) = none := rfl

/-- C1 (amended): `process_gpt_response` returns normally on well-shaped
inputs — a value carrying the error marker, or a dict whose eye entries,
when present, are dicts in which `dril`/`oedeme`/`points_hyperreflectifs`,
when dicts, carry a string `status` (and `oedeme.taille`, when present, is a
string) and whose `mle`/`ze`, when present, are strings — and the result
then contains both eye records.  On malformed input it raises
(`C1_counterexample`). -/
theorem C1_amended (r : Json) (hw : wellShapedResponse r = true) :
    ∃ out, process_gpt_response r = some out ∧
      (getItem out "left_eye").isSome = true ∧
      (getItem out "right_eye").isSome = true := by
  obtain ⟨kvs, rfl⟩ : ∃ kvs, r = Json.obj kvs := by
    cases r with
    | obj kvs => exact ⟨kvs, rfl⟩
    | null => simp [wellShapedResponse] at hw
    | bool b => simp [wellShapedResponse] at hw
    | num n => simp [wellShapedResponse] at hw
    | str s => simp [wellShapedResponse] at hw
    | arr xs => simp [wellShapedResponse] at hw
  cases herr : hasKey kvs "error" with
  | true => exact ⟨default_structure, process_error kvs herr, rfl, rfl⟩
  | false =>
      simp only [wellShapedResponse] at hw
      rw [herr] at hw
      simp only [Bool.false_or, Bool.and_eq_true] at hw
      obtain ⟨hwl, hwr⟩ := hw
      have hL : ∃ L, processEyeKey (Json.obj kvs) "left_eye" =
          some (Json.obj (objSet kvs "left_eye" L)) := by
        cases hle : objLookup kvs "left_eye" with
        | none =>
            exact ⟨defaultEye, processEyeKey_obj_absent kvs "left_eye"
              (by simp [hasKey, hle])⟩
        | some v =>
            rw [hle] at hwl
            simp at hwl
            obtain ⟨X, hX⟩ := processEye_ok v hwl
            exact ⟨X, processEyeKey_obj_present kvs "left_eye" v X hle hX⟩
      obtain ⟨L, hstep1⟩ := hL
      have hR : ∃ R, processEyeKey (Json.obj (objSet kvs "left_eye" L)) "right_eye" =
          some (Json.obj (objSet (objSet kvs "left_eye" L) "right_eye" R)) := by
        have hre : objLookup (objSet kvs "left_eye" L) "right_eye" =
            objLookup kvs "right_eye" :=
          objLookup_objSet_ne kvs "left_eye" "right_eye" L (by decide)
        cases hrv : objLookup kvs "right_eye" with
        | none =>
            exact ⟨defaultEye, processEyeKey_obj_absent _ "right_eye"
              (by simp [hasKey, hre, hrv])⟩
        | some v =>
            rw [hrv] at hwr
            simp at hwr
            obtain ⟨X, hX⟩ := processEye_ok v hwr
            exact ⟨X, processEyeKey_obj_present _ "right_eye" v X (hre.trans hrv) hX⟩
      obtain ⟨R, hstep2⟩ := hR
      refine ⟨Json.obj (objSet (objSet kvs "left_eye" L) "right_eye" R), ?_, ?_, ?_⟩
      · unfold process_gpt_response
        simp only [pyContains, herr, Option.bind_eq_bind, Option.some_bind,
          Bool.false_eq_true, if_false]
        rw [hstep1]
        simp only [Option.some_bind]
        exact hstep2
      · simp [getItem, objLookup_objSet_ne (objSet kvs "left_eye" L) "right_eye"
          "left_eye" R (by decide), objLookup_objSet_self]
      · simp [getItem, objLookup_objSet_self]

/-- C1 (witness): the amended theorem applied to a concrete well-shaped
input. -/
theorem C1_witness :
    wellShapedResponse (Json.obj [("left_eye", Json.obj [("dril",
      Json.obj [("status", Json.str "Présente")])])]) = true ∧
    ∃ out, process_gpt_response (Json.obj [("left_eye", Json.obj [("dril",
      Json.obj [("status", Json.str "Présente")])])]) = some out ∧
      (getItem out "left_eye").isSome = true ∧
      (getItem out "right_eye").isSome = true :=
  ⟨rfl, C1_amended _ rfl⟩

/-- C2 (counterexample): nested sub-fields are not completed — an input
whose `dril` carries only a `status` yields an output `dril` without the
`extent` field, since the defaulting loop of src/app.py lines 316-319 only
adds missing top-level keys. -/
theorem C2_counterexample :
    ((process_gpt_response (Json.obj [("left_eye", Json.obj [("dril",
        Json.obj [("status", Json.str "absente")])])])).bind
      (fun out => (getItem out "left_eye").bind
        (fun e => (getItem e "dril").bind
          (fun d => pyContains d "extent")))) = some false := rfl

/-- C2 (amended): on every input on which the call returns, both eye
records are dicts containing every top-level field of the Default Schema
(nested sub-fields supplied incomplete by the model may remain incomplete,
and passthrough fields may hold values outside their enums). -/
theorem C2_amended (r out : Json) (h : process_gpt_response r = some out) :
    ∃ L R, getItem out "left_eye" = some L ∧ getItem out "right_eye" = some R ∧
      eyeComplete L = true ∧ eyeComplete R = true := by
  cases herr : pyContains r "error" with
  | none => rw [process_contains_raise r herr] at h; cases h
  | some b =>
      cases b with
      | true =>
          rw [process_error_any r herr] at h
          injection h with h
          subst h
          exact ⟨defaultEye, defaultEye, rfl, rfl, by decide, by decide⟩
      | false =>
          obtain ⟨kvs, rfl⟩ : ∃ kvs, r = Json.obj kvs := by
            cases r with
            | obj kvs => exact ⟨kvs, rfl⟩
            | null => simp [pyContains] at herr
            | bool bb => simp [pyContains] at herr
            | num n => simp [pyContains] at herr
            | str s => exact (process_nonobj (Json.str s) out rfl herr h).elim
            | arr xs => exact (process_nonobj (Json.arr xs) out rfl herr h).elim
          have herr' : hasKey kvs "error" = false := by simpa [pyContains] using herr
          obtain ⟨L, R, rfl, hLn, hRn, _, _⟩ := process_obj_inv kvs out herr' h
          refine ⟨L, R, ?_, ?_, eyeComplete_of_normalized L hLn,
            eyeComplete_of_normalized R hRn⟩
          · simp [getItem, objLookup_objSet_ne (objSet kvs "left_eye" L) "right_eye"
              "left_eye" R (by decide), objLookup_objSet_self]
          · simp [getItem, objLookup_objSet_self]

/-- C2 (witness): the amended theorem applied to a concrete input. -/
theorem C2_witness :
    ∃ L R, getItem (Json.obj
        [ ("left_eye", Json.obj
            [ ("dril", Json.obj [("status", Json.str "Absente")]),
              ("oedeme", oedemeDefault), ("mle", Json.str "Continue"),
              ("ze", Json.str "Continue"),
              ("points_hyperreflectifs", pointsDefault),
              ("epaisseur_retinienne", epaisseurDefault),
              ("briding", Json.str "Absent"), ("decollement", Json.str "Absent") ]),
          ("right_eye", defaultEye) ]) "left_eye" = some L ∧
      getItem (Json.obj
        [ ("left_eye", Json.obj
            [ ("dril", Json.obj [("status", Json.str "Absente")]),
              ("oedeme", oedemeDefault), ("mle", Json.str "Continue"),
              ("ze", Json.str "Continue"),
              ("points_hyperreflectifs", pointsDefault),
              ("epaisseur_retinienne", epaisseurDefault),
              ("briding", Json.str "Absent"), ("decollement", Json.str "Absent") ]),
          ("right_eye", defaultEye) ]) "right_eye" = some R ∧
      eyeComplete L = true ∧ eyeComplete R = true :=
  C2_amended (Json.obj [("left_eye", Json.obj [("dril",
    Json.obj [("status", Json.str "absente")])])]) _ rfl

/-- C3: for any dict input carrying an `"error"` key the function returns
the Default Schema for both eyes, whatever other keys are present. -/
theorem C3 (kvs : List (String × Json)) (h : hasKey kvs "error" = true) :
    process_gpt_response (Json.obj kvs) = some default_structure :=
  process_error kvs h

/-- C3 (witness): the theorem applied to a concrete error-marked input with
other keys present. -/
theorem C3_witness :
    process_gpt_response (Json.obj [("error", Json.str "boom"),
      ("left_eye", Json.num 5)]) = some default_structure :=
  C3 [("error", Json.str "boom"), ("left_eye", Json.num 5)] rfl

/-- C4 (counterexample): no trimming happens — a raw status `"présente "`
(trailing space) matches the canonical label `"Présente"` case-insensitively
after trimming, yet the code normalizes it to `"Absente"`: `.capitalize()`
keeps the space, the membership test fails, and the lower-cased value does
not contain the ASCII token `"present"`. -/
theorem C4_counterexample :
    ((process_gpt_response (Json.obj [("left_eye", Json.obj [("dril",
        Json.obj [("status", Json.str "présente ")])])])).bind
      (fun out => statusAt out "left_eye" "dril")) = some (Json.str "Absente") ∧
    ("Absente" : String) ≠ "Présente" :=
  ⟨rfl, by decide⟩

/-- C4 (amended): without any trimming, the normalized status is the
`.capitalize()`d raw string when that equals one of the two canonical
labels, otherwise the Present-label exactly when the lower-cased capitalized
string contains the ASCII substring `"present"`, else the Absent-label
(`statusNorm`); consequently the normalized status is always one of the two
labels. -/
theorem C4_amended (r out : Json) (eye f pres abs1 s : String)
    (heye : eye = "left_eye" ∨ eye = "right_eye")
    (hfm : (f, pres, abs1) ∈ [("dril", "Présente", "Absente"),
      ("oedeme", "Présent", "Absent"),
      ("points_hyperreflectifs", "Présents", "Absents")])
    (herr : pyContains r "error" = some false)
    (hraw : statusAt r eye f = some (Json.str s))
    (hp : process_gpt_response r = some out) :
    statusAt out eye f = some (Json.str (statusNorm s pres abs1)) ∧
      (statusNorm s pres abs1 = pres ∨ statusNorm s pres abs1 = abs1) := by
  refine ⟨?_, statusNorm_mem s pres abs1⟩
  obtain ⟨kvs, rfl⟩ : ∃ kvs, r = Json.obj kvs := by
    cases r with
    | obj kvs => exact ⟨kvs, rfl⟩
    | null => simp [statusAt, getItem] at hraw
    | bool b => simp [statusAt, getItem] at hraw
    | num n => simp [statusAt, getItem] at hraw
    | str s2 => simp [statusAt, getItem] at hraw
    | arr xs => simp [statusAt, getItem] at hraw
  have herr' : hasKey kvs "error" = false := by simpa [pyContains] using herr
  cases hev : objLookup kvs eye with
  | none => simp [statusAt, getItem, hev] at hraw
  | some ev =>
      cases ev with
      | obj ekvs =>
          cases hfv : objLookup ekvs f with
          | none => simp [statusAt, getItem, hev, hfv] at hraw
          | some fv =>
              cases fv with
              | obj d =>
                  have hst : objLookup d "status" = some (Json.str s) := by
                    simpa [statusAt, getItem, hev, hfv] using hraw
                  obtain ⟨L, hpe, hoEye⟩ :=
                    process_eye_record kvs out eye ekvs heye herr' hev hp
                  obtain ⟨Lk, rfl, cd, cox, cos, cot, cm, cz, cp, ce⟩ :=
                    processEye_result ekvs L hpe
                  simp only [List.mem_cons, List.not_mem_nil, or_false,
                    Prod.mk.injEq] at hfm
                  rcases hfm with ⟨rfl, rfl, rfl⟩ | ⟨rfl, rfl, rfl⟩ | ⟨rfl, rfl, rfl⟩
                  · have hres := cd d s hfv hst
                    simp only [statusAt, hoEye, Option.bind_eq_bind, Option.some_bind]
                    simp [getItem, hres, objLookup_objSet_self]
                  · obtain ⟨dd, hdd, hdds⟩ := cos d s hfv hst
                    simp only [statusAt, hoEye, Option.bind_eq_bind, Option.some_bind]
                    simp [getItem, hdd, hdds]
                  · have hres := cp d s hfv hst
                    simp only [statusAt, hoEye, Option.bind_eq_bind, Option.some_bind]
                    simp [getItem, hres, objLookup_objSet_self]
              | null => simp [statusAt, getItem, hev, hfv] at hraw
              | bool b => simp [statusAt, getItem, hev, hfv] at hraw
              | num n => simp [statusAt, getItem, hev, hfv] at hraw
              | str s2 => simp [statusAt, getItem, hev, hfv] at hraw
              | arr xs => simp [statusAt, getItem, hev, hfv] at hraw
      | null => simp [statusAt, getItem, hev] at hraw
      | bool b => simp [statusAt, getItem, hev] at hraw
      | num n => simp [statusAt, getItem, hev] at hraw
      | str s2 => simp [statusAt, getItem, hev] at hraw
      | arr xs => simp [statusAt, getItem, hev] at hraw

/-- C4 (witness): the amended theorem applied to a concrete input whose raw
status is `"presente"` (no accent), which the substring rule maps to
`"Présente"`. -/
theorem C4_witness :
    statusAt (Json.obj
      [ ("left_eye", Json.obj
          [ ("dril", Json.obj [("status", Json.str "Présente")]),
            ("oedeme", oedemeDefault), ("mle", Json.str "Continue"),
            ("ze", Json.str "Continue"),
            ("points_hyperreflectifs", pointsDefault),
            ("epaisseur_retinienne", epaisseurDefault),
            ("briding", Json.str "Absent"), ("decollement", Json.str "Absent") ]),
        ("right_eye", defaultEye) ]) "left_eye" "dril" =
      some (Json.str (statusNorm "presente" "Présente" "Absente")) ∧
    (statusNorm "presente" "Présente" "Absente" = "Présente" ∨
      statusNorm "presente" "Présente" "Absente" = "Absente") :=
  C4_amended (Json.obj [("left_eye", Json.obj [("dril",
      Json.obj [("status", Json.str "presente")])])]) _
    "left_eye" "dril" "Présente" "Absente" "presente"
    (Or.inl rfl) (by simp) rfl rfl rfl

/-- C5 (counterexample): the size table maps `"large"` to `"volumineuse"`,
not to the grande label, and an unknown value is stored lower-cased
(`"Huge"` becomes `"huge"`), not passed through unchanged. -/
theorem C5_counterexample :
    ((process_gpt_response (Json.obj
        [ ("left_eye", Json.obj [("oedeme", Json.obj
            [("status", Json.str "Présent"), ("taille", Json.str "large")])]),
          ("right_eye", Json.obj [("oedeme", Json.obj
            [("status", Json.str "Présent"), ("taille", Json.str "Huge")])]) ])).bind
      (fun out => tailleAt out "left_eye")) = some (Json.str "volumineuse") ∧
    ((process_gpt_response (Json.obj
        [ ("left_eye", Json.obj [("oedeme", Json.obj
            [("status", Json.str "Présent"), ("taille", Json.str "large")])]),
          ("right_eye", Json.obj [("oedeme", Json.obj
            [("status", Json.str "Présent"), ("taille", Json.str "Huge")])]) ])).bind
      (fun out => tailleAt out "right_eye")) = some (Json.str "huge") ∧
    ("volumineuse" : String) ≠ "grande" ∧ ("huge" : String) ≠ "Huge" :=
  ⟨rfl, rfl, by decide, by decide⟩

/-- C5 (amended): the cyst-size normalization stores
`taille_mapping.get(raw.lower(), raw.lower())`: `"small"`, `"petit"`,
`"<100"` map to `"petite"`; `"medium"`, `"grand"`, `"100-200"` map to
`"grande"`; `"large"`, `">200"` map to `"volumineuse"`; anything else is
stored as its lower-cased form (so an already-lower-case unknown value such
as `"huge"` passes through unchanged). -/
theorem C5_amended (r out : Json) (eye s : String)
    (heye : eye = "left_eye" ∨ eye = "right_eye")
    (herr : pyContains r "error" = some false)
    (hraw : tailleAt r eye = some (Json.str s))
    (hp : process_gpt_response r = some out) :
    tailleAt out eye = some (Json.str (tailleGet (pyLower s))) := by
  obtain ⟨kvs, rfl⟩ : ∃ kvs, r = Json.obj kvs := by
    cases r with
    | obj kvs => exact ⟨kvs, rfl⟩
    | null => simp [tailleAt, getItem] at hraw
    | bool b => simp [tailleAt, getItem] at hraw
    | num n => simp [tailleAt, getItem] at hraw
    | str s2 => simp [tailleAt, getItem] at hraw
    | arr xs => simp [tailleAt, getItem] at hraw
  have herr' : hasKey kvs "error" = false := by simpa [pyContains] using herr
  cases hev : objLookup kvs eye with
  | none => simp [tailleAt, getItem, hev] at hraw
  | some ev =>
      cases ev with
      | obj ekvs =>
          cases hfv : objLookup ekvs "oedeme" with
          | none => simp [tailleAt, getItem, hev, hfv] at hraw
          | some fv =>
              cases fv with
              | obj d =>
                  have ht : objLookup d "taille" = some (Json.str s) := by
                    simpa [tailleAt, getItem, hev, hfv] using hraw
                  obtain ⟨L, hpe, hoEye⟩ :=
                    process_eye_record kvs out eye ekvs heye herr' hev hp
                  obtain ⟨Lk, rfl, cd, cox, cos, cot, cm, cz, cp, ce⟩ :=
                    processEye_result ekvs L hpe
                  obtain ⟨s0, hs0⟩ := cox d hfv
                  have hres := cot d s0 hfv hs0 s ht
                  simp only [tailleAt, hoEye, Option.bind_eq_bind, Option.some_bind]
                  simp [getItem, hres, objLookup_objSet_self]
              | null => simp [tailleAt, getItem, hev, hfv] at hraw
              | bool b => simp [tailleAt, getItem, hev, hfv] at hraw
              | num n => simp [tailleAt, getItem, hev, hfv] at hraw
              | str s2 => simp [tailleAt, getItem, hev, hfv] at hraw
              | arr xs => simp [tailleAt, getItem, hev, hfv] at hraw
      | null => simp [tailleAt, getItem, hev] at hraw
      | bool b => simp [tailleAt, getItem, hev] at hraw
      | num n => simp [tailleAt, getItem, hev] at hraw
      | str s2 => simp [tailleAt, getItem, hev] at hraw
      | arr xs => simp [tailleAt, getItem, hev] at hraw

/-- C5 (witness): the amended theorem applied to a concrete input with raw
size `"<100"`, which the table maps to `"petite"`. -/
theorem C5_witness :
    tailleAt (Json.obj
      [ ("left_eye", Json.obj
          [ ("oedeme", Json.obj [("status", Json.str "Présent"),
              ("taille", Json.str "petite")]),
            ("dril", drilDefault), ("mle", Json.str "Continue"),
            ("ze", Json.str "Continue"),
            ("points_hyperreflectifs", pointsDefault),
            ("epaisseur_retinienne", epaisseurDefault),
            ("briding", Json.str "Absent"), ("decollement", Json.str "Absent") ]),
        ("right_eye", defaultEye) ]) "left_eye" =
      some (Json.str (tailleGet (pyLower "<100"))) :=
  C5_amended (Json.obj [("left_eye", Json.obj [("oedeme", Json.obj
      [("status", Json.str "Présent"), ("taille", Json.str "<100")])])]) _
    "left_eye" "<100" (Or.inl rfl) rfl rfl rfl

/-- C6 (counterexample): the membrane token is the French `"partiel"`, not
`"partial"` — the value `"partial"` contains the claimed token yet passes
through unchanged instead of normalizing to `"Partiellement interrompue"`. -/
theorem C6_counterexample :
    ((process_gpt_response (Json.obj [("left_eye", Json.obj
        [("mle", Json.str "partial")])])).bind
      (fun out => fieldAt out "left_eye" "mle")) = some (Json.str "partial") ∧
    ("partial" : String) ≠ "Partiellement interrompue" :=
  ⟨rfl, by decide⟩

/-- C6 (amended): membrane values are substring-classified on the
lower-cased value with the tokens `"continu"`, `"partiel"`, `"complet"`, in
that priority order; a value containing none of the three is left unchanged
(`membraneNorm`). -/
theorem C6_amended (r out : Json) (eye f s : String)
    (heye : eye = "left_eye" ∨ eye = "right_eye")
    (hff : f = "mle" ∨ f = "ze")
    (herr : pyContains r "error" = some false)
    (hraw : fieldAt r eye f = some (Json.str s))
    (hp : process_gpt_response r = some out) :
    fieldAt out eye f = some (Json.str (membraneNorm s)) := by
  obtain ⟨kvs, rfl⟩ : ∃ kvs, r = Json.obj kvs := by
    cases r with
    | obj kvs => exact ⟨kvs, rfl⟩
    | null => simp [fieldAt, getItem] at hraw
    | bool b => simp [fieldAt, getItem] at hraw
    | num n => simp [fieldAt, getItem] at hraw
    | str s2 => simp [fieldAt, getItem] at hraw
    | arr xs => simp [fieldAt, getItem] at hraw
  have herr' : hasKey kvs "error" = false := by simpa [pyContains] using herr
  cases hev : objLookup kvs eye with
  | none => simp [fieldAt, getItem, hev] at hraw
  | some ev =>
      cases ev with
      | obj ekvs =>
          have hfv : objLookup ekvs f = some (Json.str s) := by
            simpa [fieldAt, getItem, hev] using hraw
          obtain ⟨L, hpe, hoEye⟩ :=
            process_eye_record kvs out eye ekvs heye herr' hev hp
          obtain ⟨Lk, rfl, cd, cox, cos, cot, cm, cz, cp, ce⟩ :=
            processEye_result ekvs L hpe
          rcases hff with rfl | rfl
          · simp only [fieldAt, hoEye, Option.bind_eq_bind, Option.some_bind]
            simp [getItem, cm s hfv]
          · simp only [fieldAt, hoEye, Option.bind_eq_bind, Option.some_bind]
            simp [getItem, cz s hfv]
      | null => simp [fieldAt, getItem, hev] at hraw
      | bool b => simp [fieldAt, getItem, hev] at hraw
      | num n => simp [fieldAt, getItem, hev] at hraw
      | str s2 => simp [fieldAt, getItem, hev] at hraw
      | arr xs => simp [fieldAt, getItem, hev] at hraw

/-- C6 (witness): the amended theorem applied to a concrete input whose
`ze` value `"PARTIELLEMENT interrompue"` contains the `"partiel"` token. -/
theorem C6_witness :
    fieldAt (Json.obj
      [ ("right_eye", Json.obj
          [ ("ze", Json.str "Partiellement interrompue"),
            ("dril", drilDefault), ("oedeme", oedemeDefault),
            ("mle", Json.str "Continue"),
            ("points_hyperreflectifs", pointsDefault),
            ("epaisseur_retinienne", epaisseurDefault),
            ("briding", Json.str "Absent"), ("decollement", Json.str "Absent") ]),
        ("left_eye", defaultEye) ]) "right_eye" "ze" =
      some (Json.str (membraneNorm "PARTIELLEMENT interrompue")) :=
  C6_amended (Json.obj [("right_eye", Json.obj
      [("ze", Json.str "PARTIELLEMENT interrompue")])]) _
    "right_eye" "ze" "PARTIELLEMENT interrompue"
    (Or.inr rfl) (Or.inr rfl) rfl rfl rfl

/-- C7: an eye key absent from the input receives exactly the default
record, and the empty object yields the Default Schema for both eyes. -/
theorem C7 :
    (∀ r out eye, (eye = "left_eye" ∨ eye = "right_eye") →
      pyContains r eye = some false → process_gpt_response r = some out →
      getItem out eye = some defaultEye) ∧
    process_gpt_response (Json.obj []) = some default_structure := by
  constructor
  · intro r out eye heye hne hp
    cases herr : pyContains r "error" with
    | none => rw [process_contains_raise r herr] at hp; cases hp
    | some b =>
        cases b with
        | true =>
            rw [process_error_any r herr] at hp
            injection hp with hp
            subst hp
            rcases heye with rfl | rfl
            · rfl
            · rfl
        | false =>
            obtain ⟨kvs, rfl⟩ : ∃ kvs, r = Json.obj kvs := by
              cases r with
              | obj kvs => exact ⟨kvs, rfl⟩
              | null => simp [pyContains] at herr
              | bool bb => simp [pyContains] at herr
              | num n => simp [pyContains] at herr
              | str s => exact (process_nonobj (Json.str s) out rfl herr hp).elim
              | arr xs => exact (process_nonobj (Json.arr xs) out rfl herr hp).elim
            have herr' : hasKey kvs "error" = false := by simpa [pyContains] using herr
            have hne' : hasKey kvs eye = false := by simpa [pyContains] using hne
            obtain ⟨L, R, rfl, hLn, hRn, hLsrc, hRsrc⟩ :=
              process_obj_inv kvs out herr' hp
            rcases heye with rfl | rfl
            · rcases hLsrc with ⟨hn, rfl⟩ | ⟨v, hv, _⟩
              · simp [getItem, objLookup_objSet_ne (objSet kvs "left_eye" defaultEye)
                  "right_eye" "left_eye" R (by decide), objLookup_objSet_self]
              · simp [hasKey, hv] at hne'
            · rcases hRsrc with ⟨hn, rfl⟩ | ⟨v, hv, _⟩
              · simp [getItem, objLookup_objSet_self]
              · simp [hasKey, hv] at hne'
  · rfl

/-- C7 (witness): the first part applied to a concrete input in which only
the left eye is present. -/
theorem C7_witness :
    process_gpt_response (Json.obj [("left_eye", Json.obj [])]) =
      some default_structure ∧
    getItem default_structure "right_eye" = some defaultEye :=
  ⟨rfl, C7.1 (Json.obj [("left_eye", Json.obj [])]) default_structure
    "right_eye" (Or.inr rfl) rfl rfl⟩

/-- C8 (counterexample): the source mutates its argument in place and
returns it, so the caller's object does not keep its initial value — on the
empty dict the final value of the passed-in object is the Default Schema,
not the empty dict it held before the call. -/
theorem C8_counterexample :
    process_gpt_response (Json.obj []) = some default_structure ∧
      default_structure ≠ Json.obj [] :=
  ⟨rfl, by simp [default_structure]⟩

/-- C8 (amended): `process_gpt_response` mutates its argument in place and
returns the same object (the returned value is the final value of the
caller's dict); top-level keys other than the two eye keys are passed
through unchanged, and the default template is rebuilt inside every call, so
no state is shared across calls. -/
theorem C8_amended (kvs : List (String × Json)) (out : Json)
    (herr : hasKey kvs "error" = false)
    (hp : process_gpt_response (Json.obj kvs) = some out) :
    ∃ kvs2, out = Json.obj kvs2 ∧
      ∀ k, k ≠ "left_eye" → k ≠ "right_eye" →
        objLookup kvs2 k = objLookup kvs k := by
  obtain ⟨L, R, rfl, _, _, _, _⟩ := process_obj_inv kvs out herr hp
  refine ⟨_, rfl, fun k h1 h2 => ?_⟩
  rw [objLookup_objSet_ne (objSet kvs "left_eye" L) "right_eye" k R h2,
    objLookup_objSet_ne kvs "left_eye" k L h1]

/-- C8 (witness): the amended theorem applied to a concrete input with an
extra top-level key. -/
theorem C8_witness :
    ∃ kvs2, Json.obj [("extra", Json.num 3), ("left_eye", defaultEye),
        ("right_eye", defaultEye)] = Json.obj kvs2 ∧
      ∀ k, k ≠ "left_eye" → k ≠ "right_eye" →
        objLookup kvs2 k = objLookup [("extra", Json.num 3)] k :=
  C8_amended [("extra", Json.num 3)] _ rfl rfl

/-- C9: a string-valued `epaisseur_retinienne` is replaced by the per-sector
record with the string as the central sector and the other four sectors
empty. -/
theorem C9 (r out : Json) (eye s : String)
    (heye : eye = "left_eye" ∨ eye = "right_eye")
    (herr : pyContains r "error" = some false)
    (hraw : fieldAt r eye "epaisseur_retinienne" = some (Json.str s))
    (hp : process_gpt_response r = some out) :
    fieldAt out eye "epaisseur_retinienne" = some (epaisseurObj s) := by
  obtain ⟨kvs, rfl⟩ : ∃ kvs, r = Json.obj kvs := by
    cases r with
    | obj kvs => exact ⟨kvs, rfl⟩
    | null => simp [fieldAt, getItem] at hraw
    | bool b => simp [fieldAt, getItem] at hraw
    | num n => simp [fieldAt, getItem] at hraw
    | str s2 => simp [fieldAt, getItem] at hraw
    | arr xs => simp [fieldAt, getItem] at hraw
  have herr' : hasKey kvs "error" = false := by simpa [pyContains] using herr
  cases hev : objLookup kvs eye with
  | none => simp [fieldAt, getItem, hev] at hraw
  | some ev =>
      cases ev with
      | obj ekvs =>
          have hfv : objLookup ekvs "epaisseur_retinienne" = some (Json.str s) := by
            simpa [fieldAt, getItem, hev] using hraw
          obtain ⟨L, hpe, hoEye⟩ :=
            process_eye_record kvs out eye ekvs heye herr' hev hp
          obtain ⟨Lk, rfl, cd, cox, cos, cot, cm, cz, cp, ce⟩ :=
            processEye_result ekvs L hpe
          simp only [fieldAt, hoEye, Option.bind_eq_bind, Option.some_bind]
          simp [getItem, ce s hfv]
      | null => simp [fieldAt, getItem, hev] at hraw
      | bool b => simp [fieldAt, getItem, hev] at hraw
      | num n => simp [fieldAt, getItem, hev] at hraw
      | str s2 => simp [fieldAt, getItem, hev] at hraw
      | arr xs => simp [fieldAt, getItem, hev] at hraw

/-- C9 (witness): the theorem applied to the spec's own example, the flat
string `"250um central"`. -/
theorem C9_witness :
    fieldAt (Json.obj
      [ ("right_eye", Json.obj
          [ ("epaisseur_retinienne", Json.obj
              [ ("central", Json.str "250um central"), ("superieur", Json.str ""),
                ("inferieur", Json.str ""), ("nasal", Json.str ""),
                ("temporal", Json.str "") ]),
            ("dril", drilDefault), ("oedeme", oedemeDefault),
            ("mle", Json.str "Continue"), ("ze", Json.str "Continue"),
            ("points_hyperreflectifs", pointsDefault),
            ("briding", Json.str "Absent"), ("decollement", Json.str "Absent") ]),
        ("left_eye", defaultEye) ]) "right_eye" "epaisseur_retinienne" =
      some (epaisseurObj "250um central") :=
  C9 (Json.obj [("right_eye", Json.obj [("epaisseur_retinienne",
      Json.str "250um central")])]) _
    "right_eye" "250um central" (Or.inr rfl) rfl rfl rfl

/-- C10: the normalization is idempotent — whenever a first call returns
normally, running the function on its own output returns that output
unchanged. -/
theorem C10 (r out : Json) (hp : process_gpt_response r = some out) :
    process_gpt_response out = some out := by
  cases herr : pyContains r "error" with
  | none => rw [process_contains_raise r herr] at hp; cases hp
  | some b =>
      cases b with
      | true =>
          rw [process_error_any r herr] at hp
          injection hp with hp
          subst hp
          rfl
      | false =>
          obtain ⟨kvs, rfl⟩ : ∃ kvs, r = Json.obj kvs := by
            cases r with
            | obj kvs => exact ⟨kvs, rfl⟩
            | null => simp [pyContains] at herr
            | bool bb => simp [pyContains] at herr
            | num n => simp [pyContains] at herr
            | str s => exact (process_nonobj (Json.str s) out rfl herr hp).elim
            | arr xs => exact (process_nonobj (Json.arr xs) out rfl herr hp).elim
          have herr' : hasKey kvs "error" = false := by simpa [pyContains] using herr
          obtain ⟨L, R, rfl, hLn, hRn, _, _⟩ := process_obj_inv kvs out herr' hp
          have hl : objLookup (objSet (objSet kvs "left_eye" L) "right_eye" R)
              "left_eye" = some L := by
            rw [objLookup_objSet_ne (objSet kvs "left_eye" L) "right_eye"
              "left_eye" R (by decide)]
            exact objLookup_objSet_self kvs "left_eye" L
          have hr : objLookup (objSet (objSet kvs "left_eye" L) "right_eye" R)
              "right_eye" = some R :=
            objLookup_objSet_self _ "right_eye" R
          have herr2 : hasKey (objSet (objSet kvs "left_eye" L) "right_eye" R)
              "error" = false := by
            unfold hasKey
            rw [objLookup_objSet_ne (objSet kvs "left_eye" L) "right_eye"
              "error" R (by decide),
              objLookup_objSet_ne kvs "left_eye" "error" L (by decide)]
            exact herr'
          unfold process_gpt_response
          simp only [pyContains, herr2, Option.bind_eq_bind, Option.some_bind,
            Bool.false_eq_true, if_false]
          rw [processEyeKey_obj_present _ "left_eye" L L hl (processEye_fix L hLn)]
          simp only [Option.some_bind]
          rw [objSet_lookup_eq _ "left_eye" L hl]
          rw [processEyeKey_obj_present _ "right_eye" R R hr (processEye_fix R hRn)]
          rw [objSet_lookup_eq _ "right_eye" R hr]

/-- C10 (witness): the theorem applied to the run on the empty object,
whose output is the Default Schema. -/
theorem C10_witness :
    process_gpt_response default_structure = some default_structure :=
  C10 (Json.obj []) default_structure rfl

end Oct
